import Mathlib

/-!
Verification development for the property-investment calculation engine
(`backend/src/services/calculation_service.py`, `backend/src/main.py`,
`backend/src/services/detailed_breakdown_service.py`).

Shallow embedding conventions:
* Python floats are modelled by `ℚ` (exact arithmetic; the float
  overflow/domain `try/except` guards of the source, which degrade to 0,
  have no rational counterpart and are noted where they occur).
* Year counts (`years_to_sell`, `term_years`, `construction_completion_years`)
  are modelled by `ℕ`, following the data model (positive integers).
* Python dicts used as string-keyed breakdown mappings are modelled by
  association lists with replace-on-insert semantics (`bdSet`), so that
  writing an existing key overwrites it exactly as a dict does.
* `dict.get(key, default)` patterns are modelled either by `Option` fields
  or by fields that directly carry the Python default.
-/

/-- One tier of a progressive rate table: `{"limit": ..., "rate": ...}`.
`limit = none` models the Python `float("inf")` sentinel used for the final
tier. -/
structure Tier where
  limit : Option ℚ
  rate : ℚ
deriving DecidableEq

/-- Heterogeneous values stored in the `DEFAULT_RATES` table: scalars,
progressive tables and the renovation-cost mapping. -/
inductive RateValue where
  | scalar (q : ℚ)
  | table (t : List Tier)
  | dict (d : List (String × ℚ))
deriving DecidableEq

/-- Scalar view of a `RateValue` (every scalar use site in the source reads a
scalar entry or the scalar default 0). -/
def RateValue.toQ : RateValue → ℚ
  | .scalar q => q
  | _ => 0

/-- Progressive-table view of a `RateValue`. -/
def RateValue.toTable : RateValue → List Tier
  | .table t => t
  | _ => []

/-- Renovation-cost-mapping view of a `RateValue`. -/
def RateValue.toDict : RateValue → List (String × ℚ)
  | .dict d => d
  | _ => []

/-- The Spanish progressive capital-gains table
(`capital_gains_tax_rate_spain` in `DEFAULT_RATES["spain"]["barcelona"]`). -/
def spain_cgt_table : List Tier :=
  [⟨some 6000, 0.19⟩, ⟨some 50000, 0.21⟩, ⟨some 200000, 0.23⟩, ⟨none, 0.26⟩]

/-- `DEFAULT_RATES["spain"]["barcelona"]`, written as an if-chain over the
key so that proofs can case split. -/
def barcelona_rates (key : String) : Option RateValue :=
  if key = "purchase_tax_itp_new" then some (.scalar 0.10)
  else if key = "purchase_tax_itp_resale" then some (.scalar 0.10)
  else if key = "purchase_tax_vat_construction" then some (.scalar 0.10)
  else if key = "purchase_tax_ajd_construction" then some (.scalar 0.015)
  else if key = "purchase_notary_fee_rate" then some (.scalar 0.005)
  else if key = "purchase_registry_fee_rate" then some (.scalar 0.004)
  else if key = "purchase_agency_fee_rate" then some (.scalar 0.03)
  else if key = "running_ibi_rate" then some (.scalar 0.007)
  else if key = "running_community_fee_monthly" then some (.scalar 100)
  else if key = "selling_agency_fee_rate" then some (.scalar 0.05)
  else if key = "selling_plusvalia_municipal" then some (.scalar 1500)
  else if key = "capital_gains_tax_rate_spain" then some (.table spain_cgt_table)
  else if key = "beckham_law_tax_rate" then some (.scalar 0.24)
  else if key = "standard_income_tax_rate" then some (.scalar 0.35)
  else if key = "avg_appreciation_rate" then some (.scalar 0.03)
  else if key = "appreciation_std_dev" then some (.scalar 0.05)
  else if key = "renovation_rates" then
    some (.dict [("kitchen", 15000), ("bathroom", 8000), ("general", 500)])
  else none

/-- `DEFAULT_RATES["denmark"]["copenhagen"]`. -/
def copenhagen_rates (key : String) : Option RateValue :=
  if key = "purchase_tax_tinglysningsafgift_fixed" then some (.scalar 1850)
  else if key = "purchase_tax_tinglysningsafgift_variable" then some (.scalar 0.006)
  else if key = "purchase_tax_vat_construction" then some (.scalar 0.25)
  else if key = "purchase_stamp_duty_loan" then some (.scalar 0.0145)
  else if key = "purchase_stamp_duty_loan_fixed" then some (.scalar 1825)
  else if key = "purchase_lawyer_fee" then some (.scalar 15000)
  else if key = "purchase_agency_fee_rate" then some (.scalar 0.01)
  else if key = "running_property_tax_ejendomsskat" then some (.scalar 0.0092)
  else if key = "running_property_value_tax_ejendomsværdiskat" then some (.scalar 0.0051)
  else if key = "running_community_fee_monthly" then some (.scalar 1500)
  else if key = "selling_agency_fee_rate" then some (.scalar 0.02)
  else if key = "capital_gains_tax_rate_denmark" then some (.scalar 0.42)
  else if key = "standard_income_tax_rate" then some (.scalar 0.45)
  else if key = "avg_appreciation_rate" then some (.scalar 0.04)
  else if key = "appreciation_std_dev" then some (.scalar 0.06)
  else if key = "renovation_rates" then
    some (.dict [("kitchen", 100000), ("bathroom", 60000), ("general", 3000)])
  else none

/-- The nested `DEFAULT_RATES[country][city][key]` lookup; `none` models a
`KeyError` at any level. -/
def DEFAULT_RATES (country city key : String) : Option RateValue :=
  if country = "spain" then
    if city = "barcelona" then barcelona_rates key else none
  else if country = "denmark" then
    if city = "copenhagen" then copenhagen_rates key else none
  else none

/-- `get_rate(country, city, key)`: safe lookup with type-appropriate
defaults on `KeyError` (the warning `print` is a console side effect only and
carries no data). The `subkey` parameter is never passed by any caller in the
source and is omitted. Returning `list(value)` / `dict(value)` copies has no
observable counterpart for immutable Lean values. -/
def get_rate (country city key : String) : RateValue :=
  match DEFAULT_RATES country city key with
  | some v => v
  | none =>
    if key = "capital_gains_tax_rate_spain" then .table []
    else if key = "renovation_rates" then .dict []
    else .scalar 0

/-- One pass of the `for tier in rates_table` loop of
`calculate_progressive_tax`, with `last_limit` threaded explicitly.
`tier["limit"] = none` (infinity) satisfies `amount <= limit`, so the loop
always breaks there, and `min(amount, inf) = amount`. -/
def progressive_go (amount : ℚ) : List Tier → ℚ → ℚ
  | [], _ => 0
  | t :: rest, last_limit =>
    match t.limit with
    | none => max 0 (amount - last_limit) * t.rate
    | some limit =>
      let taxable_in_tier := max 0 (min amount limit - last_limit)
      if amount ≤ limit then taxable_in_tier * t.rate
      else taxable_in_tier * t.rate + progressive_go amount rest limit

/-- `calculate_progressive_tax(amount, rates_table)`. -/
def calculate_progressive_tax (amount : ℚ) (rates_table : List Tier) : ℚ :=
  if rates_table = [] ∨ amount ≤ 0 then 0
  else progressive_go amount rates_table 0

/-- `calculate_future_value(present_value, rate, years)`:
`present_value * ((1 + rate) ** years)`. -/
def calculate_future_value (present_value rate : ℚ) (years : ℕ) : ℚ :=
  present_value * (1 + rate) ^ years

/-- The level monthly payment `M = P [ i(1+i)^n ] / [ (1+i)^n - 1 ]` computed
by `calculate_total_interest_paid`. -/
def monthly_payment_q (principal i : ℚ) (n : ℕ) : ℚ :=
  principal * (i * (1 + i) ^ n) / ((1 + i) ^ n - 1)

/-- Interest paid after `k` of `n` monthly payments:
`M*k - (P - B(k))` with `B(k) = P(1+i)^k - M(((1+i)^k - 1)/i)`,
exactly the composition computed by `calculate_total_interest_paid`. -/
def interest_paid_k (principal i : ℚ) (n k : ℕ) : ℚ :=
  monthly_payment_q principal i n * k - principal +
    (principal * (1 + i) ^ k -
      monthly_payment_q principal i n * (((1 + i) ^ k - 1) / i))

/-- `calculate_total_interest_paid(principal, annual_rate, term_years,
holding_years)`. Year counts are `ℕ`, so the Python guards
`term_years <= 0` / `holding_years <= 0` become equality with 0. The
`OverflowError/ValueError` handlers of the float implementation cannot fire
over `ℚ` and are not represented. -/
def calculate_total_interest_paid (principal annual_rate : ℚ)
    (term_years holding_years : ℕ) : ℚ :=
  if annual_rate ≤ 0 ∨ term_years = 0 ∨ principal ≤ 0 ∨ holding_years = 0 then 0
  else
    let monthly_rate := annual_rate / 12
    let num_payments_total := term_years * 12
    let num_payments_holding := min (holding_years * 12) num_payments_total
    if monthly_rate = 0 then 0
    else if (1 + monthly_rate) ^ num_payments_total - 1 = 0 then 0
    else max 0 (interest_paid_k principal monthly_rate num_payments_total num_payments_holding)

/-- One entry of a payment schedule: `{"due_year": ..., "percentage": ...}`
(`due_year` defaults to -1 in the source when absent, so it is kept as `ℤ`). -/
structure PaymentEntry where
  due_year : ℤ
  percentage : ℚ
deriving DecidableEq

/-- One renovation request: `{"type": ..., "adjusted_cost": ...}`; both keys
may be absent in the source dict, hence the `Option`s. -/
structure Renovation where
  type : Option String
  adjusted_cost : Option ℚ
deriving DecidableEq

/-- `loan_details`: `amount`, `interest_rate`, `term_years` (read with
default 30 by the orchestrator, hence `Option`), and the
`total_interest_paid` key that `perform_calculation_for_scenario` writes
into this very dict. -/
structure LoanDetails where
  amount : ℚ
  interest_rate : ℚ
  term_years : Option ℕ
  total_interest_paid : Option ℚ
deriving DecidableEq

/-- The per-property input record (`inputs` in the source), with the
`dict.get` defaults of the source absorbed into the field types:
`new_flat_price` defaults to 0, `property_type` to `"new"`,
`payment_schedule` to `[]`, `construction_completion_years` to 0,
`renovations` to `[]`, `loan_details` to the empty (falsy) dict — modelled
as `none` — and `beckham_law_active` to `False`. -/
structure PropertyInputs where
  new_flat_price : ℚ
  property_type : String
  payment_schedule : List PaymentEntry
  construction_completion_years : ℕ
  renovations : List Renovation
  loan_details : Option LoanDetails
  beckham_law_active : Bool
deriving DecidableEq

/-- A value stored in a breakdown dict: a monetary amount, a text note
(warnings, the Danish capital-gains note) or the echoed payment schedule. -/
inductive BVal where
  | q (v : ℚ)
  | s (v : String)
  | sched (v : List PaymentEntry)
deriving DecidableEq

/-- Monetary content of a breakdown entry (0 for non-monetary entries). -/
def money_at (p : String × BVal) : ℚ :=
  match p.2 with
  | .q v => v
  | _ => 0

/-- Whether an association-list breakdown already holds `key`. -/
def bdHasKey (bd : List (String × BVal)) (key : String) : Bool :=
  bd.any (fun p => p.1 == key)

/-- Python-dict assignment `bd[key] = v` on an association list: replaces
the existing entry for `key` in place, otherwise appends. -/
def bdSet (bd : List (String × BVal)) (key : String) (v : BVal) : List (String × BVal) :=
  if bdHasKey bd key then bd.map (fun p => if p.1 = key then (key, v) else p)
  else bd ++ [(key, v)]

/-- Read a monetary entry from a breakdown (0 when absent or non-monetary). -/
def bdGetQ (bd : List (String × BVal)) (key : String) : ℚ :=
  match bd.find? (fun p => p.1 == key) with
  | some p => money_at p
  | none => 0

/-- `sum(p.get("percentage", 0) for p in payment_schedule if
p.get("due_year", -1) == 0)` — the year-zero payment fraction. -/
def initial_fraction_from_schedule (payment_schedule : List PaymentEntry) : ℚ :=
  ((payment_schedule.filter (fun p => p.due_year == 0)).map (fun p => p.percentage)).sum

/-- Breakdown key written for one renovation:
`f"renovation_{reno.get('type', 'custom')}"`. -/
def reno_key (r : Renovation) : String :=
  "renovation_" ++ r.type.getD "custom"

/-- Cost charged for one renovation: the explicit `adjusted_cost` if
present, else the jurisdiction default for its type, else 0
(`renovation_rates.get(reno.get("type"))`, `None` falling through to 0). -/
def reno_cost (renovation_rates : List (String × ℚ)) (r : Renovation) : ℚ :=
  match r.adjusted_cost with
  | some c => c
  | none =>
    match r.type.bind (fun t => (renovation_rates.find? (fun p => p.1 == t)).map Prod.snd) with
    | some d => d
    | none => 0

/-- The `for reno in renovations` loop of `calculate_purchase_costs`:
threads the breakdown dict and the accumulated `renovation_total`. -/
def addRenovations (renovation_rates : List (String × ℚ)) :
    List Renovation → List (String × BVal) → ℚ → List (String × BVal) × ℚ
  | [], bd, acc => (bd, acc)
  | r :: rest, bd, acc =>
    addRenovations renovation_rates rest
      (bdSet bd (reno_key r) (.q (reno_cost renovation_rates r)))
      (acc + reno_cost renovation_rates r)

/-- The country- and property-type-conditional tax/fee line items of
`calculate_purchase_costs`, in source order, as (breakdown key, amount)
pairs. The source accumulates these amounts in six named accumulators
(`purchase_tax_total`, `ajd_tax_total`, `notary_fee_total`,
`registry_fee_total`, `loan_stamp_duty_total`, `lawyer_fee_total`) that are
only ever used through their sum, which here is the sum of the item list. -/
def purchase_fee_items (country city prop_type : String) (price loan_amount : ℚ) :
    List (String × ℚ) :=
  if country = "spain" then
    (if prop_type = "under_construction" ∨ prop_type = "new" then
      [("purchase_tax_vat", price * (get_rate country city "purchase_tax_vat_construction").toQ),
       ("purchase_tax_ajd", price * (get_rate country city "purchase_tax_ajd_construction").toQ)]
     else if prop_type = "second_hand" then
      [("purchase_tax_itp", price * (get_rate country city "purchase_tax_itp_resale").toQ)]
     else []) ++
    [("notary_fee", price * (get_rate country city "purchase_notary_fee_rate").toQ),
     ("registry_fee", price * (get_rate country city "purchase_registry_fee_rate").toQ)]
  else if country = "denmark" then
    (if prop_type = "under_construction" ∨ prop_type = "new" then
      [("purchase_tax_vat", price * (get_rate country city "purchase_tax_vat_construction").toQ)]
     else if prop_type = "ejer" ∨ prop_type = "andels" then
      [("purchase_tax_tinglysningsafgift",
        (get_rate country city "purchase_tax_tinglysningsafgift_fixed").toQ +
          price * (get_rate country city "purchase_tax_tinglysningsafgift_variable").toQ)]
     else []) ++
    [("loan_stamp_duty",
      (get_rate country city "purchase_stamp_duty_loan_fixed").toQ +
        loan_amount * (get_rate country city "purchase_stamp_duty_loan").toQ),
     ("lawyer_fee", (get_rate country city "purchase_lawyer_fee").toQ)]
  else []

/-- Result record of `calculate_purchase_costs`. -/
structure PurchaseCosts where
  total_investment_cost : ℚ
  initial_outlay_year0 : ℚ
  breakdown : List (String × BVal)
deriving DecidableEq

/-- `loan_details.get("amount", price * 0.8)` — the loan amount used for the
Danish loan stamp duty, defaulting to an 80 percent loan-to-value. -/
def purchase_loan_amount (inputs : PropertyInputs) (price : ℚ) : ℚ :=
  match inputs.loan_details with
  | some ld => ld.amount
  | none => price * 0.8

/-- The year-zero payment fraction: the due-period-0 schedule sum for an
under-construction property with a schedule, the assumed 10 percent without
one, and the full price otherwise. -/
def purchase_initial_fraction (inputs : PropertyInputs) : ℚ :=
  if inputs.property_type = "under_construction" ∧ inputs.payment_schedule ≠ [] then
    initial_fraction_from_schedule inputs.payment_schedule
  else if inputs.property_type = "under_construction" then 0.10
  else 1

/-- `calculate_purchase_costs(inputs, country, city)`. -/
def calculate_purchase_costs (inputs : PropertyInputs) (country city : String) :
    PurchaseCosts :=
  let price := inputs.new_flat_price
  let prop_type := inputs.property_type
  let payment_schedule := inputs.payment_schedule
  let loan_amount := purchase_loan_amount inputs price
  if price ≤ 0 then ⟨0, 0, []⟩
  else
    let bd := bdSet [] "property_price" (.q price)
    let total_investment_cost := price
    let initial_payment_fraction : ℚ := purchase_initial_fraction inputs
    let bd :=
      if prop_type = "under_construction" ∧ payment_schedule = [] then
        bdSet bd "warning_no_payment_schedule" (.s "Assumed 10 percent initial payment.")
      else bd
    let initial_property_payment := price * initial_payment_fraction
    let initial_outlay_year0 := initial_property_payment
    let bd := bdSet bd "initial_property_payment_year0" (.q initial_property_payment)
    let fee_items := purchase_fee_items country city prop_type price loan_amount
    let bd := fee_items.foldl (fun b kv => bdSet b kv.1 (.q kv.2)) bd
    let taxes_fees_year0 := (fee_items.map Prod.snd).sum
    let total_investment_cost := total_investment_cost + taxes_fees_year0
    let initial_outlay_year0 := initial_outlay_year0 + taxes_fees_year0
    let bd := bdSet bd "taxes_fees_year0" (.q taxes_fees_year0)
    let reno_state :=
      if inputs.renovations = [] then (bd, total_investment_cost, initial_outlay_year0)
      else
        let renovation_rates := (get_rate country city "renovation_rates").toDict
        let rl := addRenovations renovation_rates inputs.renovations bd 0
        (bdSet rl.1 "renovation_total" (.q rl.2),
          total_investment_cost + rl.2, initial_outlay_year0 + rl.2)
    let bd := reno_state.1
    let total_investment_cost := reno_state.2.1
    let initial_outlay_year0 := reno_state.2.2
    let bd :=
      if prop_type = "under_construction" ∧ payment_schedule ≠ [] then
        let bd := bdSet bd "payment_schedule" (.sched payment_schedule)
        bdSet bd "remaining_payments_value" (.q (price * (1 - initial_payment_fraction)))
      else bd
    let bd := bdSet bd "total_investment_cost" (.q total_investment_cost)
    let bd := bdSet bd "initial_outlay_year0" (.q initial_outlay_year0)
    ⟨total_investment_cost, initial_outlay_year0, bd⟩

/-- Result record of `calculate_running_costs`: the period total and the
annual / period-totalled line-item mappings (plain association lists; all
keys written are statically distinct). -/
structure RunningCosts where
  total : ℚ
  breakdown_annual : List (String × ℚ)
  breakdown_total : List (String × ℚ)
deriving DecidableEq

/-- The per-country annual recurring line items of
`calculate_running_costs`, in source order. -/
def running_annual_items (country city : String) (price : ℚ) : List (String × ℚ) :=
  if country = "spain" then
    [("property_tax_ibi", price * 0.5 * (get_rate country city "running_ibi_rate").toQ),
     ("community_fees", (get_rate country city "running_community_fee_monthly").toQ * 12)]
  else if country = "denmark" then
    [("property_tax_ejendomsskat",
      price * 0.3 * (get_rate country city "running_property_tax_ejendomsskat").toQ),
     ("property_value_tax_ejendomsværdiskat",
      price * (get_rate country city "running_property_value_tax_ejendomsværdiskat").toQ),
     ("community_fees", (get_rate country city "running_community_fee_monthly").toQ * 12)]
  else []

/-- `calculate_running_costs(inputs, country, city, years)`.
`effective_years = max(0, years - completion_years)` is `ℕ` truncated
subtraction. -/
def calculate_running_costs (inputs : PropertyInputs) (country city : String)
    (years : ℕ) : RunningCosts :=
  let price := inputs.new_flat_price
  let completion_years :=
    if inputs.property_type = "under_construction" then
      inputs.construction_completion_years
    else 0
  let effective_years := years - completion_years
  if price ≤ 0 ∨ effective_years = 0 then ⟨0, [], []⟩
  else
    let items := running_annual_items country city price
    let annual_total := (items.map Prod.snd).sum
    let breakdown_annual := items ++ [("total_annual_running_costs", annual_total)]
    { total := annual_total * (effective_years : ℚ),
      breakdown_annual := breakdown_annual,
      breakdown_total :=
        breakdown_annual.map (fun kv => (kv.1 ++ "_total", kv.2 * (effective_years : ℚ))) }

/-- Result record of `calculate_selling_costs`. -/
structure SellingCosts where
  total : ℚ
  breakdown : List (String × BVal)
deriving DecidableEq

/-- `calculate_selling_costs(country, city, selling_price, purchase_price,
purchase_costs_investment_total, years_held, beckham_law_active)`.
Note the guard reads `purchase_price`, not the capital-gain cost basis
`purchase_costs_investment_total`; `years_held` is accepted but unused,
as in the source. -/
def calculate_selling_costs (country city : String)
    (selling_price purchase_price purchase_costs_investment_total : ℚ)
    (_years_held : ℕ) (beckham_law_active : Bool) : SellingCosts :=
  if selling_price ≤ 0 ∨ purchase_price ≤ 0 then ⟨0, []⟩
  else
    let agency_fee := selling_price * (get_rate country city "selling_agency_fee_rate").toQ
    let bd := bdSet [] "selling_agency_fee" (.q agency_fee)
    let capital_gain := selling_price - purchase_costs_investment_total
    let bd := bdSet bd "capital_gain" (.q capital_gain)
    let cg_state : List (String × BVal) × ℚ :=
      if country = "denmark" then
        (bdSet bd "capital_gains_tax_note"
          (.s "No capital gains tax applied (assumes tax residence in Denmark)"), 0)
      else if country = "spain" then
        if beckham_law_active then
          let beckham_rate := (get_rate country city "beckham_law_tax_rate").toQ
          let t := if 0 < capital_gain then capital_gain * beckham_rate else 0
          (bdSet bd "capital_gains_tax_beckham" (.q t), t)
        else
          let rates_table := (get_rate country city "capital_gains_tax_rate_spain").toTable
          let t := if 0 < capital_gain then calculate_progressive_tax capital_gain rates_table else 0
          (bdSet bd "capital_gains_tax_standard" (.q t), t)
      else (bd, 0)
    let capital_gains_tax := cg_state.2
    let bd := bdSet cg_state.1 "capital_gains_tax" (.q capital_gains_tax)
    let total := agency_fee + capital_gains_tax
    let plusvalia_state : List (String × BVal) × ℚ :=
      if country = "spain" then
        let plusvalia := (get_rate country city "selling_plusvalia_municipal").toQ
        (bdSet bd "plusvalia_municipal" (.q plusvalia), total + plusvalia)
      else (bd, total)
    let costs_gains := max 0 (selling_price - purchase_costs_investment_total)
    let bd := bdSet plusvalia_state.1 "costs_gains" (.q costs_gains)
    ⟨plusvalia_state.2, bd⟩

/-- Renting-baseline inputs, with the `float(...get(..., 0))` defaults of the
source absorbed into plain `ℚ` fields. -/
structure RentingInputs where
  monthly_rent : ℚ
  monthly_water : ℚ
  monthly_utilities : ℚ
  monthly_parking : ℚ
  annual_rent_increment : ℚ
  annual_water_increment : ℚ
  annual_utilities_increment : ℚ
  annual_parking_increment : ℚ
deriving DecidableEq

/-- Result record of `calculate_renting_scenario_cost` (the per-component
annual breakdown of the source is recoverable from these fields and is not
re-modelled). -/
structure RentingResult where
  total_renting_cost : ℚ
  total_rent : ℚ
  total_water : ℚ
  total_utilities : ℚ
  total_parking : ℚ
  years : ℕ
deriving DecidableEq

/-- One escalated component of the renting loop:
`sum over year < years of monthly * 12 * (1 + increment) ** year`. -/
def escalated_component_total (monthly increment : ℚ) (years : ℕ) : ℚ :=
  ((List.range years).map (fun year => monthly * 12 * (1 + increment) ^ year)).sum

/-- `calculate_renting_scenario_cost(renting_inputs, years_to_sell)`. The
`renting_inputs is None` error branch lives at the call boundary (the caller
only invokes the function with a present record) and the `float()` conversion
errors cannot occur over `ℚ`. -/
def calculate_renting_scenario_cost (ri : RentingInputs) (years_to_sell : ℕ) :
    Except String RentingResult :=
  if ri.monthly_rent ≤ 0 then .error "Monthly rent must be greater than 0"
  else if years_to_sell = 0 then .error "Years to sell must be greater than 0"
  else
    let total_rent := escalated_component_total ri.monthly_rent ri.annual_rent_increment years_to_sell
    let total_water := escalated_component_total ri.monthly_water ri.annual_water_increment years_to_sell
    let total_utilities := escalated_component_total ri.monthly_utilities ri.annual_utilities_increment years_to_sell
    let total_parking := escalated_component_total ri.monthly_parking ri.annual_parking_increment years_to_sell
    .ok { total_renting_cost := total_rent + total_water + total_utilities + total_parking,
          total_rent := total_rent, total_water := total_water,
          total_utilities := total_utilities, total_parking := total_parking,
          years := years_to_sell }

/-- `scenario_settings`; `years_to_sell` is read with `.get(..., 10)`. -/
structure ScenarioSettings where
  years_to_sell : Option ℕ
deriving DecidableEq

/-- The argument record assembled for `perform_calculation_for_scenario`
(the unused `personal_finance` sub-record is omitted). -/
structure CalculationInput where
  country : String
  city : String
  inputs : Option PropertyInputs
  scenario_settings : ScenarioSettings
deriving DecidableEq

/-- One appreciation scenario entry of `selling_scenarios`. -/
structure SellingScen where
  selling_price : ℚ
  selling_costs : SellingCosts
  win_loss_eur : ℚ
deriving DecidableEq

/-- The `selling_scenarios` dict, which always carries exactly the four
appreciation-scenario keys. -/
structure SellingScenarios where
  zero_growth : SellingScen
  avg_growth : SellingScen
  low_risk : SellingScen
  high_risk : SellingScen
deriving DecidableEq

/-- The `growth_rates` dict reported for frontend display. -/
structure GrowthRates where
  zero_growth : ℚ
  avg_growth : ℚ
  low_risk : ℚ
  high_risk : ℚ
deriving DecidableEq

/-- The success result of `perform_calculation_for_scenario`
(`detailed_breakdowns`, a pure regrouping of these same fields, and the
always-empty `warnings` list are not re-modelled). -/
structure CalcResult where
  purchase_costs : PurchaseCosts
  running_costs : RunningCosts
  loan_interest_costs : ℚ
  selling_scenarios : SellingScenarios
  overall_summary_win_loss_eur : ℚ
  years_to_sell : ℕ
  growth_rates : GrowthRates
deriving DecidableEq

/-- Builds one `selling_scenarios` entry: the selling-cost call and the
`win_loss` line of the source loop
(`win_loss = selling_price - total_investment_cost - running_total -
loan_interest_costs - selling_costs_total`). -/
def mk_selling_scen (country city : String) (price tic running_total loan_interest : ℚ)
    (years : ℕ) (beckham : Bool) (selling_price : ℚ) : SellingScen :=
  let selling_costs := calculate_selling_costs country city selling_price price tic years beckham
  { selling_price := selling_price,
    selling_costs := selling_costs,
    win_loss_eur := selling_price - tic - running_total - loan_interest - selling_costs.total }

/-- The post-validation body of `perform_calculation_for_scenario`: builds
the result record and the updated property-input record (the latter captures
the in-place write `loan_details["total_interest_paid"] =
loan_interest_costs`). -/
def perform_core (country city : String) (inputs : PropertyInputs)
    (years_to_sell : ℕ) : CalcResult × PropertyInputs :=
  let price := inputs.new_flat_price
  let purchase_costs := calculate_purchase_costs inputs country city
  let running_costs := calculate_running_costs inputs country city years_to_sell
  let loan_interest_costs :=
    match inputs.loan_details with
    | some ld =>
      if 0 < ld.amount then
        calculate_total_interest_paid ld.amount ld.interest_rate
          (ld.term_years.getD 30) years_to_sell
      else 0
    | none => 0
  let inputs2 :=
    { inputs with
      loan_details := inputs.loan_details.map (fun ld =>
        if 0 < ld.amount then { ld with total_interest_paid := some loan_interest_costs }
        else ld) }
  let avg_appreciation_rate := (get_rate country city "avg_appreciation_rate").toQ
  let std_dev := (get_rate country city "appreciation_std_dev").toQ
  let tic := purchase_costs.total_investment_cost
  let beckham := inputs.beckham_law_active
  let scens : SellingScenarios :=
    { zero_growth :=
        mk_selling_scen country city price tic running_costs.total
          loan_interest_costs years_to_sell beckham price,
      avg_growth :=
        mk_selling_scen country city price tic running_costs.total
          loan_interest_costs years_to_sell beckham
          (calculate_future_value price avg_appreciation_rate years_to_sell),
      low_risk :=
        mk_selling_scen country city price tic running_costs.total
          loan_interest_costs years_to_sell beckham
          (calculate_future_value price (max 0 (avg_appreciation_rate - std_dev)) years_to_sell),
      high_risk :=
        mk_selling_scen country city price tic running_costs.total
          loan_interest_costs years_to_sell beckham
          (calculate_future_value price (avg_appreciation_rate + std_dev) years_to_sell) }
  ({ purchase_costs := purchase_costs,
     running_costs := running_costs,
     loan_interest_costs := loan_interest_costs,
     selling_scenarios := scens,
     overall_summary_win_loss_eur := scens.avg_growth.win_loss_eur,
     years_to_sell := years_to_sell,
     growth_rates :=
       { zero_growth := 0,
         avg_growth := avg_appreciation_rate,
         low_risk := max 0 (avg_appreciation_rate - std_dev),
         high_risk := avg_appreciation_rate + std_dev } },
   inputs2)

/-- `perform_calculation_for_scenario(calculation_input)`. Errors are the
exact error dicts of the source; a success returns the result record
together with the post-call state of the input record. -/
def perform_calculation_for_scenario (ci : CalculationInput) :
    Except String (CalcResult × CalculationInput) :=
  match ci.inputs with
  | none => .error "Missing required inputs (country, city, or property details)"
  | some inputs =>
    if ci.country = "" ∨ ci.city = "" then
      .error "Missing required inputs (country, city, or property details)"
    else
      let years_to_sell := ci.scenario_settings.years_to_sell.getD 10
      if years_to_sell = 0 then .error "Years to sell must be greater than 0"
      else if inputs.new_flat_price ≤ 0 then .error "Property price must be greater than 0"
      else
        let pr := perform_core ci.country ci.city inputs years_to_sell
        .ok (pr.1, { ci with inputs := some pr.2 })

/-- One scenario object of the request payload. -/
structure RequestScenario where
  id : String
  country : String
  city : String
  inputs : Option PropertyInputs
deriving DecidableEq

/-- One element of `results_by_scenario`: the incomplete-data error record,
a result that is itself an error dict, or a full result (with the optional
`index_adjusted_profit_eur`). -/
inductive ScenRecord where
  | incomplete (scenario_id : String) (error : String)
  | calc_error (scenario_id : String) (error : String)
  | done (scenario_id : String) (result : CalcResult) (index_adjusted_profit_eur : Option ℚ)
deriving DecidableEq

/-- The request body of `/api/calculate` (the unused `personal_finance`
record is omitted; an absent or empty `scenario_settings` dict is `none`). -/
structure RequestData where
  scenario_settings : Option ScenarioSettings
  scenarios : List RequestScenario
  renting_scenario_inputs : Option RentingInputs
deriving DecidableEq

/-- The responses of `calculate_investment`: a 400, the catch-all 500 of the
surrounding `try/except`, or the success payload (the de-duplicated
`global_warnings` list carries no data modelled here). -/
inductive ApiResponse where
  | bad_request (error : String)
  | server_error (error : String)
  | success (results_by_scenario : List ScenRecord)
      (renting_scenario_results : Option (Except String RentingResult))

/-- The body of the `for scenario in scenarios_data` loop of
`calculate_investment` for one scenario. An `Except.error` models a Python
exception escaping the loop body: when a renting baseline was computed
successfully and the scenario result is an error dict, the source line
`scenario_result_data["overall_summary"]["index_adjusted_profit_eur"] = ...`
raises `KeyError` because the error dict has no `overall_summary` key. -/
def process_scenario (st : ScenarioSettings) (renting_ok : Bool)
    (total_renting_cost : ℚ) (sc : RequestScenario) : Except String ScenRecord :=
  if sc.id = "" ∨ sc.country = "" ∨ sc.city = "" ∨ sc.inputs = none then
    .ok (.incomplete sc.id "Incomplete scenario data (missing id, country, city, or inputs)")
  else
    match perform_calculation_for_scenario
      { country := sc.country, city := sc.city, inputs := sc.inputs, scenario_settings := st } with
    | .error _msg =>
      if renting_ok then .error "KeyError overall_summary"
      else .ok (.calc_error sc.id _msg)
    | .ok (r, _) =>
      if renting_ok then
        .ok (.done sc.id r (some (r.overall_summary_win_loss_eur - total_renting_cost)))
      else .ok (.done sc.id r none)

/-- The scenario loop: appends records in order and aborts on the first
escaping exception, exactly like the `for` loop inside the `try` block. -/
def run_scenarios (st : ScenarioSettings) (renting_ok : Bool) (total_renting_cost : ℚ) :
    List RequestScenario → Except String (List ScenRecord)
  | [] => .ok []
  | sc :: rest =>
    match process_scenario st renting_ok total_renting_cost sc with
    | .error e => .error e
    | .ok rec1 =>
      match run_scenarios st renting_ok total_renting_cost rest with
      | .error e => .error e
      | .ok recs => .ok (rec1 :: recs)

/-- `calculate_investment` (`POST /api/calculate`), after JSON parsing. -/
def calculate_investment (data : RequestData) : ApiResponse :=
  if data.scenarios = [] then .bad_request "No scenarios provided"
  else
    match data.scenario_settings with
    | none => .bad_request "Scenario settings (years_to_sell) missing"
    | some st =>
      match st.years_to_sell with
      | none => .bad_request "Scenario settings (years_to_sell) missing"
      | some y =>
        let renting_results :=
          data.renting_scenario_inputs.map (fun ri => calculate_renting_scenario_cost ri y)
        let renting_ok : Bool :=
          match renting_results with
          | some (.ok _) => true
          | _ => false
        let total_renting_cost : ℚ :=
          match renting_results with
          | some (.ok rr) => rr.total_renting_cost
          | _ => 0
        match run_scenarios st renting_ok total_renting_cost data.scenarios with
        | .error e => .server_error ("An error occurred during calculation: " ++ e)
        | .ok recs => .success recs renting_results

/-- Sum of the rates of a progressive table (a Lipschitz constant for
`calculate_progressive_tax`). -/
def sum_rates (table : List Tier) : ℚ :=
  (table.map Tier.rate).sum

/-- The table invariant of the data model: strictly increasing upper limits,
with the infinite limit allowed only as the final tier. The first argument is
the lower bound for the limits that follow (0 at the top level, matching the
initial `last_limit`). -/
def limits_chain : ℚ → List Tier → Bool
  | _, [] => true
  | last_limit, t :: rest =>
    match t.limit with
    | none => rest.isEmpty
    | some l => decide (last_limit < l) && limits_chain l rest

/-- The final tier of a non-empty table carries the infinite limit. -/
def last_tier_infinite (table : List Tier) : Bool :=
  match table.getLast? with
  | none => true
  | some t => t.limit.isNone

/-- Keys of the purchase breakdown that are aggregates of other line items
(`taxes_fees_year0`, `renovation_total`, the echoed grand totals), purely
informational figures (`remaining_payments_value`, the echoed
`payment_schedule`), cash-timing figures (`initial_property_payment_year0`)
or text notes — everything that is not an individual cost line item. -/
def purchase_excluded_keys : List String :=
  ["initial_property_payment_year0", "taxes_fees_year0", "renovation_total",
   "warning_no_payment_schedule", "payment_schedule", "remaining_payments_value",
   "total_investment_cost", "initial_outlay_year0"]

/-- Every key the purchase calculator itself writes (fee/tax keys,
`property_price`, and all aggregate/informational keys); renovation keys are
derived from user data and can, in principle, collide with these. -/
def purchase_reserved_keys : List String :=
  ["property_price", "purchase_tax_vat", "purchase_tax_ajd", "purchase_tax_itp",
   "purchase_tax_tinglysningsafgift", "notary_fee", "registry_fee",
   "loan_stamp_duty", "lawyer_fee"] ++ purchase_excluded_keys

/-- Sum of the monetary entries of a breakdown whose keys are not in the
given excluded-key list (the generic "sum of named line items"). -/
def line_item_sum (excluded : List String) (bd : List (String × BVal)) : ℚ :=
  ((bd.filter (fun p => !(excluded.contains p.1))).map money_at).sum

/-- Sum of the individual cost line items of a purchase breakdown
(`property_price`, each tax/fee item, each renovation item). -/
def purchase_component_sum (bd : List (String × BVal)) : ℚ :=
  line_item_sum purchase_excluded_keys bd

/-- Keys of the selling breakdown that are not charged cost line items: the
informational `capital_gain` / `costs_gains` figures, the text note, and the
labelled duplicates of `capital_gains_tax`. -/
def selling_excluded_keys : List String :=
  ["capital_gain", "capital_gains_tax_beckham", "capital_gains_tax_standard",
   "capital_gains_tax_note", "costs_gains"]

/-- Sum of the charged cost line items of a selling breakdown
(`selling_agency_fee`, `capital_gains_tax`, `plusvalia_municipal`). -/
def selling_component_sum (bd : List (String × BVal)) : ℚ :=
  line_item_sum selling_excluded_keys bd

/-- Sum of the period-totalled line items of a running-cost breakdown,
excluding the aggregate `total_annual_running_costs_total` entry. -/
def running_component_sum (breakdown_total : List (String × ℚ)) : ℚ :=
  ((breakdown_total.filter (fun p => !(p.1 == "total_annual_running_costs_total"))).map Prod.snd).sum

/-- Property inputs with a single explicit-cost renovation (collision-free
renovation key). -/
def c5_ok_inputs : PropertyInputs :=
  { new_flat_price := 1000, property_type := "new", payment_schedule := [],
    construction_completion_years := 0,
    renovations := [{ type := some "kitchen", adjusted_cost := some 10 }],
    loan_details := none, beckham_law_active := false }

/-- Sample property inputs: a 1000-unit new-build in Barcelona, no loan, no
renovations. -/
def sample_inputs : PropertyInputs :=
  { new_flat_price := 1000, property_type := "new", payment_schedule := [],
    construction_completion_years := 0, renovations := [], loan_details := none,
    beckham_law_active := false }

/-- Sample orchestrator input over `sample_inputs` with a 2-year hold. -/
def sample_ci : CalculationInput :=
  { country := "spain", city := "barcelona", inputs := some sample_inputs,
    scenario_settings := { years_to_sell := some 2 } }

/-- A loan whose presence makes the orchestrator write
`total_interest_paid` back into the input record. -/
def c9_loan : LoanDetails :=
  { amount := 100, interest_rate := 12, term_years := some 1, total_interest_paid := none }

/-- Property inputs carrying `c9_loan`. -/
def c9_prop : PropertyInputs :=
  { new_flat_price := 1000, property_type := "new", payment_schedule := [],
    construction_completion_years := 0, renovations := [], loan_details := some c9_loan,
    beckham_law_active := false }

/-- Orchestrator input over `c9_prop` with a 1-year hold. -/
def c9_ci : CalculationInput :=
  { country := "spain", city := "barcelona", inputs := some c9_prop,
    scenario_settings := { years_to_sell := some 1 } }

/-- Property inputs listing the same renovation type twice with different
explicit costs: both costs enter the totals, but the second breakdown write
overwrites the first (`renovation_kitchen` is a single dict key). -/
def c5_dup_inputs : PropertyInputs :=
  { new_flat_price := 1000, property_type := "new", payment_schedule := [],
    construction_completion_years := 0,
    renovations := [{ type := some "kitchen", adjusted_cost := some 10 },
                    { type := some "kitchen", adjusted_cost := some 20 }],
    loan_details := none, beckham_law_active := false }

/-- A scenario whose property price is 0, making
`perform_calculation_for_scenario` return an error dict. -/
def c6_bad_scenario : RequestScenario :=
  { id := "bad", country := "spain", city := "barcelona",
    inputs := some { new_flat_price := 0, property_type := "new", payment_schedule := [],
                     construction_completion_years := 0, renovations := [],
                     loan_details := none, beckham_law_active := false } }

/-- A well-formed sibling scenario in the same request. -/
def c6_good_scenario : RequestScenario :=
  { id := "good", country := "spain", city := "barcelona", inputs := some sample_inputs }

/-- A valid renting baseline (1000/month, no escalation). -/
def c6_renting : RentingInputs :=
  { monthly_rent := 1000, monthly_water := 0, monthly_utilities := 0, monthly_parking := 0,
    annual_rent_increment := 0, annual_water_increment := 0,
    annual_utilities_increment := 0, annual_parking_increment := 0 }

/-- A request holding a valid renting baseline, one malformed scenario and
one well-formed scenario. -/
def c6_request : RequestData :=
  { scenario_settings := some { years_to_sell := some 2 },
    scenarios := [c6_bad_scenario, c6_good_scenario],
    renting_scenario_inputs := some c6_renting }

/-- C1: for every property scenario accepted by the orchestrator, each of
the four appreciation scenarios reports
`win_loss = selling_price - total_investment_cost - running_total -
loan_interest - selling_total`, where the investment cost, running cost and
loan interest are the single shared values stored on the result, and each
scenario's selling costs are derived from its own sale price with the shared
cost basis. -/
theorem c1_net_profit_formula (ci : CalculationInput) (r : CalcResult)
    (ci2 : CalculationInput) (inp : PropertyInputs)
    (h : perform_calculation_for_scenario ci = .ok (r, ci2))
    (hin : ci.inputs = some inp) :
    ∀ s ∈ [r.selling_scenarios.zero_growth, r.selling_scenarios.avg_growth,
           r.selling_scenarios.low_risk, r.selling_scenarios.high_risk],
      s.win_loss_eur =
        s.selling_price - r.purchase_costs.total_investment_cost - r.running_costs.total -
          r.loan_interest_costs - s.selling_costs.total ∧
      s.selling_costs =
        calculate_selling_costs ci.country ci.city s.selling_price inp.new_flat_price
          r.purchase_costs.total_investment_cost r.years_to_sell inp.beckham_law_active := by
  unfold perform_calculation_for_scenario at h
  rw [hin] at h
  dsimp only at h
  split at h
  · exact absurd h (by simp)
  split at h
  · exact absurd h (by simp)
  split at h
  · exact absurd h (by simp)
  simp only [Except.ok.injEq, Prod.mk.injEq] at h
  obtain ⟨hr, _⟩ := h
  subst hr
  intro s hs
  simp only [List.mem_cons, List.not_mem_nil, or_false] at hs
  rcases hs with hs | hs | hs | hs <;> subst hs <;>
    exact ⟨rfl, rfl⟩

/-- Success shape of the orchestrator: with a non-empty country and city, a
present input record, explicit positive holding years and a positive price,
`perform_calculation_for_scenario` returns the `perform_core` value. -/
theorem perform_ok_shape (country city : String) (inp : PropertyInputs) (y : ℕ)
    (hc : country ≠ "") (hci : city ≠ "") (hy : y ≠ 0)
    (hp : 0 < inp.new_flat_price) :
    perform_calculation_for_scenario
      { country := country, city := city, inputs := some inp,
        scenario_settings := { years_to_sell := some y } } =
      .ok ((perform_core country city inp y).1,
        { country := country, city := city,
          inputs := some (perform_core country city inp y).2,
          scenario_settings := { years_to_sell := some y } }) := by
  unfold perform_calculation_for_scenario
  dsimp only [Option.getD]
  rw [if_neg (by simp [hc, hci]), if_neg hy, if_neg (not_le.mpr hp)]

/-- Witness for C1: the sample scenario is accepted and its average-growth
entry satisfies the profit formula. -/
theorem c1_net_profit_formula_witness :
    ∃ r ci2, perform_calculation_for_scenario sample_ci = .ok (r, ci2) ∧
      r.selling_scenarios.avg_growth.win_loss_eur =
        r.selling_scenarios.avg_growth.selling_price - r.purchase_costs.total_investment_cost -
          r.running_costs.total - r.loan_interest_costs -
          r.selling_scenarios.avg_growth.selling_costs.total := by
  have h : perform_calculation_for_scenario sample_ci =
      .ok ((perform_core "spain" "barcelona" sample_inputs 2).1,
        { country := "spain", city := "barcelona",
          inputs := some (perform_core "spain" "barcelona" sample_inputs 2).2,
          scenario_settings := { years_to_sell := some 2 } }) :=
    perform_ok_shape "spain" "barcelona" sample_inputs 2 (by decide) (by decide)
      (by decide) (by norm_num [sample_inputs])
  exact ⟨_, _, h, (c1_net_profit_formula sample_ci _ _ sample_inputs h rfl _ (by simp)).1⟩

/-- C7: every accepted property scenario projects its four sale prices with
the annual rates 0, mean, `max 0 (mean - stdDev)` and `mean + stdDev`, where
mean and stdDev are the jurisdiction appreciation statistics, each via
`salePrice = price * (1 + rate) ^ yearsToSell`; in particular the
zero-growth sale price equals the purchase price. -/
theorem c7_appreciation_scenario_rates (ci : CalculationInput) (r : CalcResult)
    (ci2 : CalculationInput) (inp : PropertyInputs)
    (h : perform_calculation_for_scenario ci = .ok (r, ci2))
    (hin : ci.inputs = some inp) :
    r.growth_rates =
      { zero_growth := 0,
        avg_growth := (get_rate ci.country ci.city "avg_appreciation_rate").toQ,
        low_risk := max 0 ((get_rate ci.country ci.city "avg_appreciation_rate").toQ -
          (get_rate ci.country ci.city "appreciation_std_dev").toQ),
        high_risk := (get_rate ci.country ci.city "avg_appreciation_rate").toQ +
          (get_rate ci.country ci.city "appreciation_std_dev").toQ } ∧
    r.selling_scenarios.zero_growth.selling_price = inp.new_flat_price ∧
    r.selling_scenarios.zero_growth.selling_price =
      calculate_future_value inp.new_flat_price r.growth_rates.zero_growth r.years_to_sell ∧
    r.selling_scenarios.avg_growth.selling_price =
      calculate_future_value inp.new_flat_price r.growth_rates.avg_growth r.years_to_sell ∧
    r.selling_scenarios.low_risk.selling_price =
      calculate_future_value inp.new_flat_price r.growth_rates.low_risk r.years_to_sell ∧
    r.selling_scenarios.high_risk.selling_price =
      calculate_future_value inp.new_flat_price r.growth_rates.high_risk r.years_to_sell := by
  unfold perform_calculation_for_scenario at h
  rw [hin] at h
  dsimp only at h
  split at h
  · exact absurd h (by simp)
  split at h
  · exact absurd h (by simp)
  split at h
  · exact absurd h (by simp)
  simp only [Except.ok.injEq, Prod.mk.injEq] at h
  obtain ⟨hr, _⟩ := h
  subst hr
  refine ⟨rfl, rfl, ?_, rfl, rfl, rfl⟩
  show inp.new_flat_price = inp.new_flat_price * (1 + 0) ^ _
  rw [add_zero, one_pow, mul_one]

/-- Witness for C7 at the sample input: the zero-growth sale price equals
the purchase price 1000. -/
theorem c7_appreciation_scenario_rates_witness :
    ∃ r ci2, perform_calculation_for_scenario sample_ci = .ok (r, ci2) ∧
      r.selling_scenarios.zero_growth.selling_price = 1000 := by
  have h : perform_calculation_for_scenario sample_ci =
      .ok ((perform_core "spain" "barcelona" sample_inputs 2).1,
        { country := "spain", city := "barcelona",
          inputs := some (perform_core "spain" "barcelona" sample_inputs 2).2,
          scenario_settings := { years_to_sell := some 2 } }) :=
    perform_ok_shape "spain" "barcelona" sample_inputs 2 (by decide) (by decide)
      (by decide) (by norm_num [sample_inputs])
  refine ⟨_, _, h, ?_⟩
  rw [(c7_appreciation_scenario_rates sample_ci _ _ sample_inputs h rfl).2.1]
  rfl

/-- C10: the consolidated default profit figure of an accepted scenario is
exactly the average-growth entry's `win_loss_eur`, and the renting-adjusted
figure attached by the request loop is that same default minus the renting
total. -/
theorem c10_default_summary_avg_growth :
    (∀ (ci : CalculationInput) (r : CalcResult) (ci2 : CalculationInput),
       perform_calculation_for_scenario ci = .ok (r, ci2) →
       r.overall_summary_win_loss_eur = r.selling_scenarios.avg_growth.win_loss_eur) ∧
    (∀ (st : ScenarioSettings) (trc : ℚ) (sc : RequestScenario) (sid : String)
       (r : CalcResult) (adj : Option ℚ),
       process_scenario st true trc sc = .ok (.done sid r adj) →
       adj = some (r.overall_summary_win_loss_eur - trc)) := by
  constructor
  · intro ci r ci2 h
    unfold perform_calculation_for_scenario at h
    rcases hin : ci.inputs with _ | inp
    · rw [hin] at h; exact absurd h (by simp)
    rw [hin] at h
    dsimp only at h
    split at h
    · exact absurd h (by simp)
    split at h
    · exact absurd h (by simp)
    split at h
    · exact absurd h (by simp)
    simp only [Except.ok.injEq, Prod.mk.injEq] at h
    obtain ⟨hr, _⟩ := h
    subst hr
    rfl
  · intro st trc sc sid r adj h
    unfold process_scenario at h
    split at h
    · exact absurd h (by simp)
    split at h
    · exact absurd h (by simp)
    simp only [if_true] at h
    simp only [Except.ok.injEq, ScenRecord.done.injEq] at h
    obtain ⟨-, rfl, h3⟩ := h
    exact h3.symm

/-- Witness for C10: both parts applied at the sample scenario. -/
theorem c10_default_summary_avg_growth_witness :
    ∃ r ci2, perform_calculation_for_scenario sample_ci = .ok (r, ci2) ∧
      r.overall_summary_win_loss_eur = r.selling_scenarios.avg_growth.win_loss_eur := by
  have h : perform_calculation_for_scenario sample_ci =
      .ok ((perform_core "spain" "barcelona" sample_inputs 2).1,
        { country := "spain", city := "barcelona",
          inputs := some (perform_core "spain" "barcelona" sample_inputs 2).2,
          scenario_settings := { years_to_sell := some 2 } }) :=
    perform_ok_shape "spain" "barcelona" sample_inputs 2 (by decide) (by decide)
      (by decide) (by norm_num [sample_inputs])
  exact ⟨_, _, h, c10_default_summary_avg_growth.1 sample_ci _ _ h⟩

/-- Counterexample for C9: running the scenario calculation does not leave
the input record unchanged — on an input with a positive-amount loan, the
returned post-call input record differs from the original (the loan-details
substructure gains `total_interest_paid`). -/
theorem c9_purity_counterexample :
    ∃ r ci2, perform_calculation_for_scenario c9_ci = .ok (r, ci2) ∧ ci2 ≠ c9_ci := by
  have h : perform_calculation_for_scenario c9_ci =
      .ok ((perform_core "spain" "barcelona" c9_prop 1).1,
        { country := "spain", city := "barcelona",
          inputs := some (perform_core "spain" "barcelona" c9_prop 1).2,
          scenario_settings := { years_to_sell := some 1 } }) :=
    perform_ok_shape "spain" "barcelona" c9_prop 1 (by decide) (by decide) (by decide)
      (by norm_num [c9_prop])
  refine ⟨_, _, h, ?_⟩
  have hld : (perform_core "spain" "barcelona" c9_prop 1).2.loan_details =
      some { amount := 100, interest_rate := 12, term_years := some 1,
             total_interest_paid :=
               some ((perform_core "spain" "barcelona" c9_prop 1).1.loan_interest_costs) } := by
    norm_num [perform_core, c9_prop, c9_loan]
  intro heq
  have h1 := congrArg (fun c => c.inputs) heq
  simp only [c9_ci] at h1
  rw [Option.some.injEq] at h1
  have h2 := congrArg PropertyInputs.loan_details h1
  rw [hld] at h2
  simp [c9_prop, c9_loan] at h2

/-- C9 as amended: the engine calculators are pure functions of their
arguments and the rate table is a constant, but
`perform_calculation_for_scenario` performs exactly one write into its input
record: when a loan with positive amount is present it stores the computed
total interest under `total_interest_paid` in the loan-details substructure;
every other part of the input record is returned unchanged. -/
theorem c9_purity_amended (ci : CalculationInput) (r : CalcResult)
    (ci2 : CalculationInput) (inp : PropertyInputs)
    (h : perform_calculation_for_scenario ci = .ok (r, ci2))
    (hin : ci.inputs = some inp) :
    ci2 = { ci with inputs := some { inp with
      loan_details := inp.loan_details.map (fun ld =>
        if 0 < ld.amount then { ld with total_interest_paid := some r.loan_interest_costs }
        else ld) } } := by
  unfold perform_calculation_for_scenario at h
  rw [hin] at h
  dsimp only at h
  split at h
  · exact absurd h (by simp)
  split at h
  · exact absurd h (by simp)
  split at h
  · exact absurd h (by simp)
  simp only [Except.ok.injEq, Prod.mk.injEq] at h
  obtain ⟨hr, hci⟩ := h
  subst hr
  subst hci
  rfl

/-- Witness for the amended C9 at the concrete loan-carrying input. -/
theorem c9_purity_amended_witness :
    ∃ r ci2, perform_calculation_for_scenario c9_ci = .ok (r, ci2) ∧
      ci2 = { c9_ci with inputs := some { c9_prop with
        loan_details := c9_prop.loan_details.map (fun ld =>
          if 0 < ld.amount then { ld with total_interest_paid := some r.loan_interest_costs }
          else ld) } } := by
  have h : perform_calculation_for_scenario c9_ci =
      .ok ((perform_core "spain" "barcelona" c9_prop 1).1,
        { country := "spain", city := "barcelona",
          inputs := some (perform_core "spain" "barcelona" c9_prop 1).2,
          scenario_settings := { years_to_sell := some 1 } }) :=
    perform_ok_shape "spain" "barcelona" c9_prop 1 (by decide) (by decide) (by decide)
      (by norm_num [c9_prop])
  exact ⟨_, _, h, c9_purity_amended c9_ci _ _ c9_prop h rfl⟩

/-- Counterexample for C4: a selling-cost call whose capital-gain cost basis
is non-positive (here -10) while both prices are positive does not return
the all-zero breakdown — the guard tests the raw purchase price, not the
cost basis, so fees and gains tax are still charged. -/
theorem c4_zero_guard_counterexample :
    (-10 : ℚ) ≤ 0 ∧
      (calculate_selling_costs "spain" "barcelona" 100 50 (-10) 1 false).total ≠ 0 := by
  refine ⟨by norm_num, ?_⟩
  norm_num +decide [calculate_selling_costs, get_rate, DEFAULT_RATES, barcelona_rates,
    RateValue.toQ, RateValue.toTable, calculate_progressive_tax, progressive_go,
    spain_cgt_table, bdSet, bdHasKey]

/-- C4 as amended: the all-zero guard of the selling-cost calculator fires
exactly on `selling_price ≤ 0` or `purchase_price ≤ 0` (the raw price
argument), returning a zero total and an empty breakdown; the capital-gain
cost basis is not consulted by the guard. -/
theorem c4_zero_guard_amended (country city : String)
    (selling_price purchase_price basis : ℚ) (years : ℕ) (b : Bool)
    (h : selling_price ≤ 0 ∨ purchase_price ≤ 0) :
    calculate_selling_costs country city selling_price purchase_price basis years b =
      ⟨0, []⟩ := by
  unfold calculate_selling_costs
  rw [if_pos h]

/-- Witness for the amended C4 at a concrete degenerate sale price. -/
theorem c4_zero_guard_amended_witness :
    calculate_selling_costs "spain" "barcelona" 0 50 10 1 false = ⟨0, []⟩ :=
  c4_zero_guard_amended "spain" "barcelona" 0 50 10 1 false (Or.inl (by norm_num))

/-- C6 failing input: with a valid renting baseline in the request, a
scenario that fails validation inside the engine (price 0) makes the whole
request abort with the catch-all 500 — the per-scenario loop dies on the
`KeyError` raised when attaching the renting-adjusted profit to an error
result — so the well-formed sibling scenario never completes, contrary to
the per-scenario isolation the specification requires. -/
theorem c6_scenario_isolation_code_bug :
    calculate_investment c6_request =
      .server_error "An error occurred during calculation: KeyError overall_summary" := by
  norm_num +decide [calculate_investment, c6_request, c6_renting, c6_bad_scenario,
    c6_good_scenario, calculate_renting_scenario_cost, escalated_component_total,
    run_scenarios, process_scenario, perform_calculation_for_scenario, sample_inputs]

/-- The amortization denominator `(1+i)^n - 1` is positive for a positive
monthly rate and at least one payment. -/
theorem interest_den_pos {i : ℚ} (hi : 0 < i) {n : ℕ} (hn : n ≠ 0) :
    0 < (1 + i) ^ n - 1 := by
  have h1 : (1 : ℚ) < 1 + i := by linarith
  have := one_lt_pow₀ h1 hn
  linarith

/-- Interest paid over zero payments is zero. -/
theorem interest_paid_zero (P i : ℚ) (n : ℕ) : interest_paid_k P i n 0 = 0 := by
  simp [interest_paid_k]

/-- One more monthly payment strictly increases the interest paid, as long
as the loan is not yet repaid (`k < n`): the difference evaluates to
`P·i·((1+i)^n − (1+i)^k) / ((1+i)^n − 1) > 0`. -/
theorem interest_paid_step {P i : ℚ} (hP : 0 < P) (hi : 0 < i) {n : ℕ} (hn : n ≠ 0)
    {k : ℕ} (hk : k < n) : interest_paid_k P i n k < interest_paid_k P i n (k + 1) := by
  have hd := interest_den_pos hi hn
  have hd0 : (1 + i) ^ n - 1 ≠ 0 := ne_of_gt hd
  have hi0 : i ≠ 0 := ne_of_gt hi
  have hδ : interest_paid_k P i n (k + 1) - interest_paid_k P i n k =
      P * i * ((1 + i) ^ n - (1 + i) ^ k) / ((1 + i) ^ n - 1) := by
    unfold interest_paid_k monthly_payment_q
    push_cast
    rw [pow_succ]
    field_simp
    ring
  have hpow : (1 + i) ^ k < (1 + i) ^ n := pow_lt_pow_right₀ (by linarith) hk
  have hpos : 0 < P * i * ((1 + i) ^ n - (1 + i) ^ k) / ((1 + i) ^ n - 1) :=
    div_pos (mul_pos (mul_pos hP hi) (by linarith)) hd
  linarith

/-- Interest paid is strictly increasing in the number of payments, up to
the full term. -/
theorem interest_paid_mono {P i : ℚ} (hP : 0 < P) (hi : 0 < i) {n : ℕ} (hn : n ≠ 0) :
    ∀ k2, k2 ≤ n → ∀ k1, k1 < k2 →
      interest_paid_k P i n k1 < interest_paid_k P i n k2 := by
  intro k2
  induction k2 with
  | zero => intro _ k1 hk1; exact absurd hk1 (Nat.not_lt_zero _)
  | succ m ih =>
    intro hm k1 hk1
    rcases Nat.lt_succ_iff_lt_or_eq.mp hk1 with h | h
    · exact lt_trans (ih (Nat.le_of_succ_le hm) k1 h)
        (interest_paid_step hP hi hn (Nat.lt_of_succ_le hm))
    · subst h
      exact interest_paid_step hP hi hn (Nat.lt_of_succ_le hm)

/-- Interest paid over at least one payment is strictly positive. -/
theorem interest_paid_pos {P i : ℚ} (hP : 0 < P) (hi : 0 < i) {n k : ℕ} (hn : n ≠ 0)
    (hk0 : k ≠ 0) (hkn : k ≤ n) : 0 < interest_paid_k P i n k := by
  have := interest_paid_mono hP hi hn k hkn 0 (Nat.pos_of_ne_zero hk0)
  rwa [interest_paid_zero] at this

/-- On non-degenerate inputs the guards fall through and the loan-interest
calculation is the clamped `interest_paid_k` at `min(h*12, t*12)` payments. -/
theorem calc_interest_eval {P r : ℚ} (hr : 0 < r) (hP : 0 < P) {t h : ℕ}
    (ht : t ≠ 0) (hh : h ≠ 0) :
    calculate_total_interest_paid P r t h =
      max 0 (interest_paid_k P (r / 12) (t * 12) (min (h * 12) (t * 12))) := by
  unfold calculate_total_interest_paid
  rw [if_neg (by push_neg; exact ⟨hr, ht, hP, hh⟩)]
  dsimp only
  have hmr : 0 < r / 12 := by positivity
  rw [if_neg (ne_of_gt hmr),
    if_neg (ne_of_gt (interest_den_pos hmr (by omega : t * 12 ≠ 0)))]

/-- C2: the loan-interest calculation returns 0 on every degenerate input
(non-positive rate or principal, zero term or zero holding period — over `ℕ`
the Python guards `term_years ≤ 0` / `holding_years ≤ 0` are equality with
0); on positive inputs it is strictly positive, and strictly increasing in
the holding period up to the loan term. -/
theorem c2_loan_interest_properties :
    (∀ (principal annual_rate : ℚ) (term_years holding_years : ℕ),
        annual_rate ≤ 0 ∨ term_years = 0 ∨ principal ≤ 0 ∨ holding_years = 0 →
        calculate_total_interest_paid principal annual_rate term_years holding_years = 0) ∧
    (∀ (principal annual_rate : ℚ) (term_years holding_years : ℕ),
        0 < annual_rate → 0 < principal → term_years ≠ 0 → holding_years ≠ 0 →
        0 < calculate_total_interest_paid principal annual_rate term_years holding_years) ∧
    (∀ (principal annual_rate : ℚ) (term_years h1 h2 : ℕ),
        0 < annual_rate → 0 < principal → h1 ≠ 0 → h1 < h2 → h2 ≤ term_years →
        calculate_total_interest_paid principal annual_rate term_years h1 <
          calculate_total_interest_paid principal annual_rate term_years h2) := by
  refine ⟨?_, ?_, ?_⟩
  · intro P r t h hcond
    unfold calculate_total_interest_paid
    rw [if_pos hcond]
  · intro P r t h hr hP ht hh
    rw [calc_interest_eval hr hP ht hh]
    have hmr : 0 < r / 12 := by positivity
    have ht12 : t * 12 ≠ 0 := by omega
    have hip := interest_paid_pos hP hmr ht12
      (k := min (h * 12) (t * 12)) (by omega) (min_le_right _ _)
    rw [max_eq_right (le_of_lt hip)]
    exact hip
  · intro P r t h1 h2 hr hP h10 h12 h2t
    rw [calc_interest_eval hr hP (by omega) h10,
        calc_interest_eval hr hP (by omega : t ≠ 0) (by omega : h2 ≠ 0)]
    have hmr : 0 < r / 12 := by positivity
    have ht12 : t * 12 ≠ 0 := by omega
    have hk1 : min (h1 * 12) (t * 12) = h1 * 12 := by omega
    have hk2 : min (h2 * 12) (t * 12) = h2 * 12 := by omega
    rw [hk1, hk2]
    have hmono := interest_paid_mono hP hmr ht12 (h2 * 12) (by omega) (h1 * 12) (by omega)
    have hp1 := interest_paid_pos hP hmr ht12 (k := h1 * 12) (by omega) (by omega)
    have hp2 := interest_paid_pos hP hmr ht12 (k := h2 * 12) (by omega) (by omega)
    rw [max_eq_right (le_of_lt hp1), max_eq_right (le_of_lt hp2)]
    exact hmono

/-- Witness for C2: all three conjuncts applied at concrete inputs
(principal 100, a degenerate rate 0 for the first part, rate 12 with terms
in whole years for the others). -/
theorem c2_loan_interest_properties_witness :
    calculate_total_interest_paid 100 0 30 3 = 0 ∧
    0 < calculate_total_interest_paid 100 12 1 1 ∧
    calculate_total_interest_paid 100 12 2 1 < calculate_total_interest_paid 100 12 2 2 :=
  ⟨c2_loan_interest_properties.1 100 0 30 3 (Or.inl le_rfl),
   c2_loan_interest_properties.2.1 100 12 1 1 (by norm_num) (by norm_num)
     (by norm_num) (by norm_num),
   c2_loan_interest_properties.2.2 100 12 2 1 2 (by norm_num) (by norm_num)
     (by norm_num) (by norm_num) (by norm_num)⟩

/-- A rate sum over non-negative rates is non-negative. -/
theorem sum_rates_nonneg (table : List Tier) (hr : ∀ t ∈ table, 0 ≤ t.rate) :
    0 ≤ sum_rates table := by
  unfold sum_rates
  apply List.sum_nonneg
  intro x hx
  obtain ⟨t, ht, rfl⟩ := List.mem_map.mp hx
  exact hr t ht

/-- Unfolding `sum_rates` over a cons cell. -/
theorem sum_rates_cons (t : Tier) (rest : List Tier) :
    sum_rates (t :: rest) = t.rate + sum_rates rest := by
  simp [sum_rates]

/-- The tier loop never produces a negative tax when all rates are
non-negative. -/
theorem progressive_go_nonneg : ∀ (table : List Tier),
    (∀ t ∈ table, 0 ≤ t.rate) →
    ∀ (amount last_limit : ℚ), 0 ≤ progressive_go amount table last_limit := by
  intro table
  induction table with
  | nil => intro _ a l; simp [progressive_go]
  | cons t rest ih =>
    intro hr a l
    have hrt : 0 ≤ t.rate := hr t (List.mem_cons_self _ _)
    have hrr : ∀ u ∈ rest, 0 ≤ u.rate := fun u hu => hr u (List.mem_cons_of_mem _ hu)
    simp only [progressive_go]
    rcases hlim : t.limit with _ | lim <;> simp only [hlim]
    · exact mul_nonneg (le_max_left _ _) hrt
    · by_cases hb : a ≤ lim
      · rw [if_pos hb]
        exact mul_nonneg (le_max_left _ _) hrt
      · rw [if_neg hb]
        exact add_nonneg (mul_nonneg (le_max_left _ _) hrt) (ih hrr a lim)

/-- The tier loop is monotone in the taxed amount when all rates are
non-negative. -/
theorem progressive_go_mono : ∀ (table : List Tier),
    (∀ t ∈ table, 0 ≤ t.rate) →
    ∀ (a1 a2 last_limit : ℚ), a1 ≤ a2 →
      progressive_go a1 table last_limit ≤ progressive_go a2 table last_limit := by
  intro table
  induction table with
  | nil => intro _ a1 a2 l _; simp [progressive_go]
  | cons t rest ih =>
    intro hr a1 a2 l h12
    have hrt : 0 ≤ t.rate := hr t (List.mem_cons_self _ _)
    have hrr : ∀ u ∈ rest, 0 ≤ u.rate := fun u hu => hr u (List.mem_cons_of_mem _ hu)
    simp only [progressive_go]
    rcases hlim : t.limit with _ | lim <;> simp only [hlim]
    · exact mul_le_mul_of_nonneg_right
        (max_le_max le_rfl (sub_le_sub_right h12 l)) hrt
    · by_cases h1 : a1 ≤ lim <;> by_cases h2 : a2 ≤ lim
      · rw [if_pos h1, if_pos h2]
        exact mul_le_mul_of_nonneg_right
          (max_le_max le_rfl (sub_le_sub_right (min_le_min h12 le_rfl) l)) hrt
      · rw [if_pos h1, if_neg h2]
        refine le_trans (mul_le_mul_of_nonneg_right
          (max_le_max le_rfl (sub_le_sub_right (min_le_min h12 le_rfl) l)) hrt) ?_
        exact le_add_of_nonneg_right (progressive_go_nonneg rest hrr a2 lim)
      · exact absurd (le_trans h12 h2) h1
      · rw [if_neg h1, if_neg h2]
        rw [min_eq_right (le_of_not_le h1), min_eq_right (le_of_not_le h2)]
        exact add_le_add_left (ih hrr a1 a2 lim h12) _

/-- Upper bound for the tier loop: with a valid chain starting at
`last_limit`, the tax on `amount` is at most the rate sum times the part of
`amount` above `last_limit`. -/
theorem progressive_go_le : ∀ (table : List Tier) (last_limit : ℚ),
    (∀ t ∈ table, 0 ≤ t.rate) → limits_chain last_limit table = true →
    ∀ a : ℚ, progressive_go a table last_limit ≤
      sum_rates table * max 0 (a - last_limit) := by
  intro table
  induction table with
  | nil => intro l _ _ a; simp [progressive_go, sum_rates]
  | cons t rest ih =>
    intro l hr hc a
    have hrt : 0 ≤ t.rate := hr t (List.mem_cons_self _ _)
    have hrr : ∀ u ∈ rest, 0 ≤ u.rate := fun u hu => hr u (List.mem_cons_of_mem _ hu)
    simp only [progressive_go]
    rcases hlim : t.limit with _ | lim
    · simp only [hlim]
      simp only [limits_chain, hlim] at hc
      have hrest : rest = [] := List.isEmpty_iff.mp hc
      subst hrest
      rw [sum_rates_cons]
      simp only [sum_rates, List.map_nil, List.sum_nil, add_zero]
      rw [mul_comm]
    · simp only [hlim]
      simp only [limits_chain, hlim, Bool.and_eq_true, decide_eq_true_eq] at hc
      obtain ⟨hl, hcr⟩ := hc
      have hsum := sum_rates_nonneg rest hrr
      by_cases hb : a ≤ lim
      · rw [if_pos hb]
        refine le_trans (mul_le_mul_of_nonneg_right
          (max_le_max le_rfl (sub_le_sub_right (min_le_left a lim) l)) hrt) ?_
        rw [sum_rates_cons, add_mul]
        have h0 : (0:ℚ) ≤ max 0 (a - l) := le_max_left _ _
        nlinarith [mul_nonneg hsum h0]
      · rw [if_neg hb]
        have hal : lim < a := lt_of_not_le hb
        have h1 : max 0 (min a lim - l) * t.rate ≤ max 0 (a - l) * t.rate :=
          mul_le_mul_of_nonneg_right
            (max_le_max le_rfl (sub_le_sub_right (min_le_left a lim) l)) hrt
        have h2 : progressive_go a rest lim ≤ sum_rates rest * max 0 (a - lim) :=
          ih lim hrr hcr a
        have h3 : max 0 (a - lim) ≤ max 0 (a - l) :=
          max_le_max le_rfl (by linarith)
        have h4 : sum_rates rest * max 0 (a - lim) ≤ sum_rates rest * max 0 (a - l) :=
          mul_le_mul_of_nonneg_left h3 hsum
        rw [sum_rates_cons, add_mul]
        have h5 : max 0 (a - l) * t.rate = t.rate * max 0 (a - l) := mul_comm _ _
        linarith

/-- The positive part is 1-Lipschitz: `max 0 x - max 0 y ≤ x - y` for
`y ≤ x`. -/
theorem max0_sub_le {x y : ℚ} (h : y ≤ x) : max 0 x - max 0 y ≤ x - y := by
  rcases le_total x 0 with hx | hx <;> rcases le_total y 0 with hy | hy
  · rw [max_eq_left hx, max_eq_left hy]; linarith
  · rw [max_eq_left hx, max_eq_right hy]; linarith
  · rw [max_eq_right hx, max_eq_left hy]; linarith
  · rw [max_eq_right hx, max_eq_right hy]

/-- Lipschitz bound for the tier loop: with a valid chain, increasing the
amount by `d` increases the tax by at most `sum_rates * d`. -/
theorem progressive_go_lipschitz : ∀ (table : List Tier) (last_limit : ℚ),
    (∀ t ∈ table, 0 ≤ t.rate) → limits_chain last_limit table = true →
    ∀ a1 a2 : ℚ, a1 ≤ a2 →
      progressive_go a2 table last_limit - progressive_go a1 table last_limit ≤
        sum_rates table * (a2 - a1) := by
  intro table
  induction table with
  | nil => intro l _ _ a1 a2 _; simp [progressive_go, sum_rates]
  | cons t rest ih =>
    intro l hr hc a1 a2 h12
    have hrt : 0 ≤ t.rate := hr t (List.mem_cons_self _ _)
    have hrr : ∀ u ∈ rest, 0 ≤ u.rate := fun u hu => hr u (List.mem_cons_of_mem _ hu)
    simp only [progressive_go]
    rcases hlim : t.limit with _ | lim
    · simp only [hlim]
      simp only [limits_chain, hlim] at hc
      have hrest : rest = [] := List.isEmpty_iff.mp hc
      subst hrest
      rw [sum_rates_cons]
      simp only [sum_rates, List.map_nil, List.sum_nil, add_zero]
      rw [← sub_mul, mul_comm]
      have hm := max0_sub_le (show a1 - l ≤ a2 - l by linarith)
      exact mul_le_mul_of_nonneg_left (by linarith) hrt
    · simp only [hlim]
      simp only [limits_chain, hlim, Bool.and_eq_true, decide_eq_true_eq] at hc
      obtain ⟨hl, hcr⟩ := hc
      have hsum := sum_rates_nonneg rest hrr
      by_cases h1 : a1 ≤ lim <;> by_cases h2 : a2 ≤ lim
      · rw [if_pos h1, if_pos h2, min_eq_left h1, min_eq_left h2,
          sum_rates_cons, add_mul, ← sub_mul]
        have hm := max0_sub_le (show a1 - l ≤ a2 - l by linarith)
        have hstep : (max 0 (a2 - l) - max 0 (a1 - l)) * t.rate ≤ (a2 - a1) * t.rate :=
          mul_le_mul_of_nonneg_right (by linarith) hrt
        nlinarith [mul_nonneg hsum (sub_nonneg.mpr h12)]
      · rw [if_pos h1, if_neg h2, min_eq_left h1, min_eq_right (le_of_not_le h2)]
        have hal : lim < a2 := lt_of_not_le h2
        have hhead : max 0 (lim - l) * t.rate - max 0 (a1 - l) * t.rate ≤
            (lim - a1) * t.rate := by
          rw [← sub_mul]
          have hm := max0_sub_le (show a1 - l ≤ lim - l by linarith)
          exact mul_le_mul_of_nonneg_right (by linarith) hrt
        have htail : progressive_go a2 rest lim ≤ sum_rates rest * (a2 - lim) := by
          have := progressive_go_le rest lim hrr hcr a2
          rwa [max_eq_right (by linarith)] at this
        rw [sum_rates_cons, add_mul]
        have hb1 : (lim - a1) * t.rate ≤ (a2 - a1) * t.rate :=
          mul_le_mul_of_nonneg_right (by linarith) hrt
        have hb2 : sum_rates rest * (a2 - lim) ≤ sum_rates rest * (a2 - a1) :=
          mul_le_mul_of_nonneg_left (by linarith) hsum
        have h5 : (a2 - a1) * t.rate = t.rate * (a2 - a1) := mul_comm _ _
        linarith
      · exact absurd (le_trans h12 h2) h1
      · rw [if_neg h1, if_neg h2,
          min_eq_right (le_of_not_le h1), min_eq_right (le_of_not_le h2),
          sum_rates_cons, add_mul]
        have := ih lim hrr hcr a1 a2 h12
        have hpos : 0 ≤ t.rate * (a2 - a1) := mul_nonneg hrt (by linarith)
        linarith

/-- `calculate_progressive_tax` is monotone in the amount for non-negative
rates. -/
theorem progressive_tax_mono (table : List Tier)
    (hr : ∀ t ∈ table, 0 ≤ t.rate) :
    ∀ a1 a2 : ℚ, a1 ≤ a2 →
      calculate_progressive_tax a1 table ≤ calculate_progressive_tax a2 table := by
  intro a1 a2 h12
  unfold calculate_progressive_tax
  by_cases h1 : table = [] ∨ a1 ≤ 0
  · rw [if_pos h1]
    by_cases hc2 : table = [] ∨ a2 ≤ 0
    · rw [if_pos hc2]
    · rw [if_neg hc2]
      exact progressive_go_nonneg table hr a2 0
  · rw [if_neg h1]
    have h2 : ¬(table = [] ∨ a2 ≤ 0) := by
      push_neg at h1 ⊢
      exact ⟨h1.1, lt_of_lt_of_le h1.2 h12⟩
    rw [if_neg h2]
    exact progressive_go_mono table hr a1 a2 0 h12

/-- `calculate_progressive_tax` is `sum_rates`-Lipschitz (from below) on a
valid table. -/
theorem progressive_tax_lipschitz (table : List Tier)
    (hr : ∀ t ∈ table, 0 ≤ t.rate) (hc : limits_chain 0 table = true) :
    ∀ a1 a2 : ℚ, a1 ≤ a2 →
      calculate_progressive_tax a2 table - calculate_progressive_tax a1 table ≤
        sum_rates table * (a2 - a1) := by
  intro a1 a2 h12
  have hs := sum_rates_nonneg table hr
  unfold calculate_progressive_tax
  by_cases h1 : table = [] ∨ a1 ≤ 0
  · rw [if_pos h1]
    by_cases hc2 : table = [] ∨ a2 ≤ 0
    · rw [if_pos hc2]
      simp
      exact mul_nonneg hs (by linarith)
    · rw [if_neg hc2]
      push_neg at hc2
      have ha1 : a1 ≤ 0 := h1.resolve_left hc2.1
      have hb := progressive_go_le table 0 hr hc a2
      simp only [sub_zero] at hb
      rw [max_eq_right (le_of_lt hc2.2)] at hb
      have h4 : sum_rates table * a2 ≤ sum_rates table * (a2 - a1) :=
        mul_le_mul_of_nonneg_left (by linarith) hs
      linarith
  · rw [if_neg h1]
    have h2 : ¬(table = [] ∨ a2 ≤ 0) := by
      push_neg at h1 ⊢
      exact ⟨h1.1, lt_of_lt_of_le h1.2 h12⟩
    rw [if_neg h2]
    exact progressive_go_lipschitz table 0 hr hc a1 a2 h12

/-- C3: on a progressive table with non-negative rates, strictly increasing
upper limits (infinity only as the final tier) and an infinite final tier,
the progressive tax is monotonically non-decreasing in the amount,
returns 0 for non-positive amounts and for the empty table, and is (left-)
continuous at every finite tier boundary: the tax just below a boundary
differs from the tax at the boundary by arbitrarily little. -/
theorem c3_progressive_tax_properties (table : List Tier)
    (hrates : ∀ t ∈ table, 0 ≤ t.rate)
    (hchain : limits_chain 0 table = true)
    (hinf : last_tier_infinite table = true) :
    (∀ a1 a2 : ℚ, a1 ≤ a2 →
       calculate_progressive_tax a1 table ≤ calculate_progressive_tax a2 table) ∧
    (∀ a : ℚ, a ≤ 0 → calculate_progressive_tax a table = 0) ∧
    (∀ a : ℚ, calculate_progressive_tax a [] = 0) ∧
    (∀ t ∈ table, ∀ l : ℚ, t.limit = some l → ∀ ε : ℚ, 0 < ε → ∃ δ : ℚ, 0 < δ ∧
       ∀ a : ℚ, l - δ ≤ a → a ≤ l →
         |calculate_progressive_tax l table - calculate_progressive_tax a table| ≤ ε) := by
  refine ⟨progressive_tax_mono table hrates, ?_, ?_, ?_⟩
  · intro a ha
    unfold calculate_progressive_tax
    rw [if_pos (Or.inr ha)]
  · intro a
    unfold calculate_progressive_tax
    rw [if_pos (Or.inl rfl)]
  · intro t _ l _ ε hε
    have hs := sum_rates_nonneg table hrates
    refine ⟨ε / (sum_rates table + 1), div_pos hε (by linarith), ?_⟩
    intro a hal hala
    have hmono := progressive_tax_mono table hrates a l hala
    rw [abs_of_nonneg (by linarith)]
    have hlip := progressive_tax_lipschitz table hrates hchain a l hala
    have h2 : sum_rates table * (l - a) ≤
        sum_rates table * (ε / (sum_rates table + 1)) :=
      mul_le_mul_of_nonneg_left (by linarith) hs
    have h3 : sum_rates table * (ε / (sum_rates table + 1)) ≤ ε := by
      rw [← mul_div_assoc, div_le_iff₀ (by linarith)]
      nlinarith
    linarith

/-- Witness for C3: the Spanish capital-gains table is a valid progressive
table and the tax is monotone between two concrete amounts. -/
theorem c3_progressive_tax_properties_witness :
    (∀ t ∈ spain_cgt_table, 0 ≤ t.rate) ∧
    limits_chain 0 spain_cgt_table = true ∧
    last_tier_infinite spain_cgt_table = true ∧
    calculate_progressive_tax 100 spain_cgt_table ≤
      calculate_progressive_tax 200 spain_cgt_table := by
  have h1 : ∀ t ∈ spain_cgt_table, 0 ≤ t.rate := by
    intro t ht
    simp only [spain_cgt_table, List.mem_cons, List.not_mem_nil, or_false] at ht
    rcases ht with h | h | h | h <;> subst h <;> norm_num
  have h2 : limits_chain 0 spain_cgt_table = true := by
    norm_num [limits_chain, spain_cgt_table]
  have h3 : last_tier_infinite spain_cgt_table = true := by
    norm_num [last_tier_infinite, spain_cgt_table, List.getLast?]
  exact ⟨h1, h2, h3,
    (c3_progressive_tax_properties spain_cgt_table h1 h2 h3).1 100 200 (by norm_num)⟩

/-- Membership makes `List.contains` true (string keys). -/
theorem str_contains_true {l : List String} {a : String} (h : a ∈ l) :
    l.contains a = true := by
  simpa using h

/-- Non-membership makes `List.contains` false (string keys). -/
theorem str_contains_false {l : List String} {a : String} (h : a ∉ l) :
    l.contains a = false := by
  simpa using h

/-- A key absent from a breakdown and different from the inserted key is
still absent after `bdSet`. -/
theorem bdHasKey_bdSet_false (bd : List (String × BVal)) (k k2 : String) (v : BVal)
    (h2 : bdHasKey bd k2 = false) (hne : k2 ≠ k) :
    bdHasKey (bdSet bd k v) k2 = false := by
  unfold bdSet
  split
  · unfold bdHasKey at h2 ⊢
    rw [List.any_map]
    rw [List.any_eq_false] at h2 ⊢
    intro p hp
    simp only [Function.comp]
    by_cases hpk : p.1 = k
    · rw [if_pos hpk]
      simp [Ne.symm hne]
    · rw [if_neg hpk]
      exact h2 p hp
  · unfold bdHasKey at h2 ⊢
    rw [List.any_append, h2]
    simp [Ne.symm hne]

/-- Every entry of `bdSet bd k v` is the inserted pair or an entry of
`bd`. -/
theorem mem_bdSet (bd : List (String × BVal)) (k : String) (v : BVal)
    (p : String × BVal) (hp : p ∈ bdSet bd k v) : p = (k, v) ∨ p ∈ bd := by
  unfold bdSet at hp
  split at hp
  · obtain ⟨q, hq, hfq⟩ := List.mem_map.mp hp
    by_cases hqk : q.1 = k
    · rw [if_pos hqk] at hfq
      exact Or.inl hfq.symm
    · rw [if_neg hqk] at hfq
      exact Or.inr (hfq ▸ hq)
  · rcases List.mem_append.mp hp with h | h
    · exact Or.inr h
    · exact Or.inl (List.mem_singleton.mp h)

/-- Appending one entry adds its monetary value to the line-item sum unless
its key is excluded. -/
theorem line_item_sum_append (ex : List String) (bd : List (String × BVal))
    (k : String) (v : BVal) :
    line_item_sum ex (bd ++ [(k, v)]) =
      line_item_sum ex bd + (if k ∈ ex then 0 else money_at (k, v)) := by
  unfold line_item_sum
  rw [List.filter_append, List.map_append, List.sum_append]
  congr 1
  by_cases h : k ∈ ex
  · rw [if_pos h]
    simp [List.filter_cons, str_contains_true h, h]
  · rw [if_neg h]
    simp [List.filter_cons, str_contains_false h, h]

/-- Replacing entries under an excluded key leaves the filtered breakdown
unchanged. -/
theorem filter_map_replace (ex : List String) (k : String) (v : BVal)
    (h : k ∈ ex) :
    ∀ bd : List (String × BVal),
      ((bd.map (fun p => if p.1 = k then (k, v) else p)).filter
          (fun p => !(ex.contains p.1))) =
        bd.filter (fun p => !(ex.contains p.1)) := by
  intro bd
  induction bd with
  | nil => rfl
  | cons p rest ih =>
    simp only [List.map_cons, List.filter_cons]
    by_cases hpk : p.1 = k
    · have h3 : (ex.contains p.1) = true := by rw [hpk]; exact str_contains_true h
      simp [hpk, h, h3]
      simpa using ih
    · by_cases hpe : p.1 ∈ ex
      · simp [hpk, hpe]
        simpa using ih
      · simp [hpk, hpe]
        simpa using ih

/-- Writing an excluded key (fresh or overwritten) never changes the
line-item sum. -/
theorem line_item_sum_bdSet_excluded (ex : List String) (bd : List (String × BVal))
    (k : String) (v : BVal) (h : k ∈ ex) :
    line_item_sum ex (bdSet bd k v) = line_item_sum ex bd := by
  unfold bdSet
  split
  · unfold line_item_sum
    rw [filter_map_replace ex k v h bd]
  · rw [line_item_sum_append, if_pos h, add_zero]

/-- Writing a fresh, non-excluded monetary entry adds its value to the
line-item sum. -/
theorem line_item_sum_bdSet_new (ex : List String) (bd : List (String × BVal))
    (k : String) (x : ℚ) (hk : bdHasKey bd k = false) (hex : k ∉ ex) :
    line_item_sum ex (bdSet bd k (.q x)) = line_item_sum ex bd + x := by
  unfold bdSet
  rw [if_neg (by simp [hk])]
  rw [line_item_sum_append, if_neg hex]
  rfl

/-- The accumulated `renovation_total` of the renovation loop is the sum of
the individual renovation costs (independent of any key collisions). -/
theorem addRenovations_snd (rates : List (String × ℚ)) :
    ∀ (renos : List Renovation) (bd : List (String × BVal)) (acc : ℚ),
      (addRenovations rates renos bd acc).2 =
        acc + (renos.map (reno_cost rates)).sum := by
  intro renos
  induction renos with
  | nil => intro bd acc; simp [addRenovations]
  | cons r rest ih =>
    intro bd acc
    simp only [addRenovations, List.map_cons, List.sum_cons]
    rw [ih]
    ring

/-- With pairwise distinct renovation keys that collide neither with the
aggregate/informational keys nor with keys already present, the renovation
loop adds exactly the sum of the renovation costs to the line-item sum. -/
theorem addRenovations_fst_sum (rates : List (String × ℚ)) :
    ∀ (renos : List Renovation) (bd : List (String × BVal)),
      (∀ s ∈ renos.map reno_key, s ∉ purchase_excluded_keys) →
      (∀ s ∈ renos.map reno_key, bdHasKey bd s = false) →
      (renos.map reno_key).Nodup →
      ∀ acc,
        line_item_sum purchase_excluded_keys (addRenovations rates renos bd acc).1 =
          line_item_sum purchase_excluded_keys bd +
            (renos.map (reno_cost rates)).sum := by
  intro renos
  induction renos with
  | nil => intro bd _ _ _ acc; simp [addRenovations]
  | cons r rest ih =>
    intro bd hex hbd hnd acc
    rw [List.map_cons] at hnd
    have hnd2 := List.nodup_cons.mp hnd
    simp only [addRenovations, List.map_cons, List.sum_cons]
    have hk := hbd (reno_key r) (by rw [List.map_cons]; exact List.mem_cons_self _ _)
    have he := hex (reno_key r) (by rw [List.map_cons]; exact List.mem_cons_self _ _)
    rw [ih (bdSet bd (reno_key r) (.q (reno_cost rates r)))
      (fun s hs => hex s (by rw [List.map_cons]; exact List.mem_cons_of_mem _ hs))
      (fun s hs => bdHasKey_bdSet_false bd (reno_key r) s _
        (hbd s (by rw [List.map_cons]; exact List.mem_cons_of_mem _ hs))
        (fun hc => hnd2.1 (hc ▸ hs)))
      hnd2.2 (acc + reno_cost rates r)]
    rw [line_item_sum_bdSet_new _ _ _ _ hk he]
    ring

/-- Every entry after the renovation loop is an original entry or one of
the written renovation entries. -/
theorem mem_addRenovations (rates : List (String × ℚ)) :
    ∀ (renos : List Renovation) (bd : List (String × BVal)) (acc : ℚ)
      (p : String × BVal), p ∈ (addRenovations rates renos bd acc).1 →
      p ∈ bd ∨ ∃ r ∈ renos, p = (reno_key r, BVal.q (reno_cost rates r)) := by
  intro renos
  induction renos with
  | nil =>
    intro bd acc p hp
    exact Or.inl (by simpa [addRenovations] using hp)
  | cons r rest ih =>
    intro bd acc p hp
    simp only [addRenovations] at hp
    rcases ih _ _ p hp with h | ⟨r2, hr2, hpr2⟩
    · rcases mem_bdSet _ _ _ _ h with h2 | h2
      · exact Or.inr ⟨r, by simp, h2⟩
      · exact Or.inl h2
    · exact Or.inr ⟨r2, by simp [hr2], hpr2⟩

/-- Every entry after folding the fee items into the breakdown is an
original entry or one of the fee entries. -/
theorem mem_foldl_bdSet :
    ∀ (items : List (String × ℚ)) (bd : List (String × BVal)) (p : String × BVal),
      p ∈ items.foldl (fun b kv => bdSet b kv.1 (.q kv.2)) bd →
      p ∈ bd ∨ ∃ kv ∈ items, p = (kv.1, BVal.q kv.2) := by
  intro items
  induction items with
  | nil => intro bd p hp; exact Or.inl (by simpa using hp)
  | cons kv rest ih =>
    intro bd p hp
    simp only [List.foldl_cons] at hp
    rcases ih _ p hp with h | ⟨kv2, hkv2, hpkv2⟩
    · rcases mem_bdSet _ _ _ _ h with h2 | h2
      · exact Or.inr ⟨kv, by simp, h2⟩
      · exact Or.inl h2
    · exact Or.inr ⟨kv2, by simp [hkv2], hpkv2⟩

/-- Folding fee items with fresh, distinct, non-excluded keys adds the sum
of their amounts to the line-item sum. -/
theorem foldl_bdSet_sum :
    ∀ (items : List (String × ℚ)) (bd : List (String × BVal)),
      (∀ s ∈ items.map Prod.fst, s ∉ purchase_excluded_keys) →
      (∀ s ∈ items.map Prod.fst, bdHasKey bd s = false) →
      (items.map Prod.fst).Nodup →
      line_item_sum purchase_excluded_keys
          (items.foldl (fun b kv => bdSet b kv.1 (.q kv.2)) bd) =
        line_item_sum purchase_excluded_keys bd + (items.map Prod.snd).sum := by
  intro items
  induction items with
  | nil => intro bd _ _ _; simp
  | cons kv rest ih =>
    intro bd hex hbd hnd
    rw [List.map_cons] at hnd
    have hnd2 := List.nodup_cons.mp hnd
    simp only [List.foldl_cons, List.map_cons, List.sum_cons]
    have hk := hbd kv.1 (by rw [List.map_cons]; exact List.mem_cons_self _ _)
    have he := hex kv.1 (by rw [List.map_cons]; exact List.mem_cons_self _ _)
    rw [ih (bdSet bd kv.1 (.q kv.2))
      (fun s hs => hex s (by rw [List.map_cons]; exact List.mem_cons_of_mem _ hs))
      (fun s hs => bdHasKey_bdSet_false bd kv.1 s _
        (hbd s (by rw [List.map_cons]; exact List.mem_cons_of_mem _ hs))
        (fun hc => hnd2.1 (hc ▸ hs)))
      hnd2.2]
    rw [line_item_sum_bdSet_new _ _ _ _ hk he]
    ring

/-- Key-subset preservation through `bdSet`. -/
theorem bdSet_keys_subset {R : List String} (bd : List (String × BVal)) (k : String)
    (v : BVal) (hbd : ∀ p ∈ bd, p.1 ∈ R) (hk : k ∈ R) :
    ∀ p ∈ bdSet bd k v, p.1 ∈ R := by
  intro p hp
  rcases mem_bdSet _ _ _ _ hp with h | h
  · rw [h]; exact hk
  · exact hbd p h

/-- Key-subset preservation through an `ite` on breakdowns. -/
theorem ite_keys_subset {R : List String} (cond : Prop) [Decidable cond]
    (bdt bde : List (String × BVal)) (ht : ∀ p ∈ bdt, p.1 ∈ R)
    (he : ∀ p ∈ bde, p.1 ∈ R) : ∀ p ∈ (if cond then bdt else bde), p.1 ∈ R := by
  split <;> assumption

/-- Key-subset preservation through the fee-item fold. -/
theorem foldl_keys_subset {R : List String} (items : List (String × ℚ))
    (bd : List (String × BVal)) (hbd : ∀ p ∈ bd, p.1 ∈ R)
    (hitems : ∀ s ∈ items.map Prod.fst, s ∈ R) :
    ∀ p ∈ items.foldl (fun b kv => bdSet b kv.1 (.q kv.2)) bd, p.1 ∈ R := by
  intro p hp
  rcases mem_foldl_bdSet items bd p hp with h | ⟨kv, hkv, hpkv⟩
  · exact hbd p h
  · rw [hpkv]; exact hitems kv.1 (List.mem_map.mpr ⟨kv, hkv, rfl⟩)

/-- A key outside a superset of a breakdown's keys is not a key of the
breakdown. -/
theorem not_mem_bdHasKey {R : List String} (bd : List (String × BVal)) (s : String)
    (hsub : ∀ p ∈ bd, p.1 ∈ R) (hs : s ∉ R) : bdHasKey bd s = false := by
  unfold bdHasKey
  rw [List.any_eq_false]
  intro p hp hc
  rw [beq_iff_eq] at hc
  exact hs (hc ▸ hsub p hp)

/-- The fee-item keys are reserved keys, are not aggregate keys, differ from
the keys written before the fee fold, and are pairwise distinct — in every
country/property-type branch. -/
theorem purchase_fee_items_props (country city prop_type : String)
    (price loan_amount : ℚ) :
    (∀ s ∈ (purchase_fee_items country city prop_type price loan_amount).map Prod.fst,
       s ∈ purchase_reserved_keys ∧ s ∉ purchase_excluded_keys ∧
       s ≠ "property_price" ∧ s ≠ "warning_no_payment_schedule" ∧
       s ≠ "initial_property_payment_year0") ∧
    ((purchase_fee_items country city prop_type price loan_amount).map Prod.fst).Nodup := by
  unfold purchase_fee_items
  split_ifs <;> refine ⟨?_, ?_⟩ <;>
    simp only [List.map_append, List.map_cons, List.map_nil, List.nil_append] <;> decide

/-- The warning entry never changes a line-item sum. -/
theorem line_item_sum_warning_ite (cond : Prop) [Decidable cond]
    (bd : List (String × BVal)) (v : BVal) :
    line_item_sum purchase_excluded_keys
        (if cond then bdSet bd "warning_no_payment_schedule" v else bd) =
      line_item_sum purchase_excluded_keys bd := by
  split
  · exact line_item_sum_bdSet_excluded _ _ _ _ (by decide)
  · rfl

/-- The payment-schedule echo entries never change a line-item sum. -/
theorem line_item_sum_sched_ite (cond : Prop) [Decidable cond]
    (bd : List (String × BVal)) (v1 v2 : BVal) :
    line_item_sum purchase_excluded_keys
        (if cond then bdSet (bdSet bd "payment_schedule" v1) "remaining_payments_value" v2
         else bd) =
      line_item_sum purchase_excluded_keys bd := by
  split
  · rw [line_item_sum_bdSet_excluded _ _ _ _ (by decide),
        line_item_sum_bdSet_excluded _ _ _ _ (by decide)]
  · rfl

/-- Purchase-breakdown line items sum to the reported total, provided the
renovation keys are pairwise distinct and collide with no key of the
calculator itself. -/
theorem purchase_line_items_eq (inputs : PropertyInputs) (country city : String)
    (hnd : (inputs.renovations.map reno_key).Nodup)
    (hres : ∀ s ∈ inputs.renovations.map reno_key, s ∉ purchase_reserved_keys) :
    purchase_component_sum (calculate_purchase_costs inputs country city).breakdown =
      (calculate_purchase_costs inputs country city).total_investment_cost := by
  unfold calculate_purchase_costs
  dsimp only
  by_cases hp : inputs.new_flat_price ≤ 0
  · rw [if_pos hp]
    simp [purchase_component_sum, line_item_sum]
  · rw [if_neg hp]
    dsimp only
    unfold purchase_component_sum
    set b0 : List (String × BVal) :=
      bdSet [] "property_price" (.q inputs.new_flat_price) with hb0
    set b1 : List (String × BVal) :=
      (if inputs.property_type = "under_construction" ∧ inputs.payment_schedule = [] then
        bdSet b0 "warning_no_payment_schedule" (.s "Assumed 10 percent initial payment.")
      else b0) with hb1
    set b2 : List (String × BVal) :=
      bdSet b1 "initial_property_payment_year0"
        (.q (inputs.new_flat_price * purchase_initial_fraction inputs)) with hb2
    set items : List (String × ℚ) :=
      purchase_fee_items country city inputs.property_type inputs.new_flat_price
        (purchase_loan_amount inputs inputs.new_flat_price) with hitems
    set b3 : List (String × BVal) :=
      items.foldl (fun b kv => bdSet b kv.1 (.q kv.2)) b2 with hb3
    set b4 : List (String × BVal) :=
      bdSet b3 "taxes_fees_year0" (.q ((items.map Prod.snd).sum)) with hb4
    have hprops := purchase_fee_items_props country city inputs.property_type
      inputs.new_flat_price (purchase_loan_amount inputs inputs.new_flat_price)
    have e0 : line_item_sum purchase_excluded_keys b0 = inputs.new_flat_price := by
      rw [hb0, line_item_sum_bdSet_new purchase_excluded_keys [] "property_price"
        inputs.new_flat_price rfl (by decide)]
      simp [line_item_sum]
    have e1 : line_item_sum purchase_excluded_keys b1 = inputs.new_flat_price := by
      rw [hb1, line_item_sum_warning_ite]
      exact e0
    have e2 : line_item_sum purchase_excluded_keys b2 = inputs.new_flat_price := by
      rw [hb2, line_item_sum_bdSet_excluded _ _ _ _ (by decide)]
      exact e1
    have hk2 : ∀ s ∈ items.map Prod.fst, bdHasKey b2 s = false := by
      intro s hs
      obtain ⟨-, h1, h2, h3⟩ := (hprops.1 s hs).2
      rw [hb2]
      apply bdHasKey_bdSet_false _ _ _ _ ?_ h3
      rw [hb1]
      split
      · apply bdHasKey_bdSet_false _ _ _ _ ?_ h2
        rw [hb0]
        apply bdHasKey_bdSet_false _ _ _ _ ?_ h1
        rfl
      · rw [hb0]
        apply bdHasKey_bdSet_false _ _ _ _ ?_ h1
        rfl
    have e3 : line_item_sum purchase_excluded_keys b3 =
        inputs.new_flat_price + (items.map Prod.snd).sum := by
      rw [hb3, foldl_bdSet_sum items b2 (fun s hs => (hprops.1 s hs).2.1) hk2 hprops.2, e2]
    have e4 : line_item_sum purchase_excluded_keys b4 =
        inputs.new_flat_price + (items.map Prod.snd).sum := by
      rw [hb4, line_item_sum_bdSet_excluded _ _ _ _ (by decide)]
      exact e3
    have hs0 : ∀ p ∈ b0, p.1 ∈ purchase_reserved_keys := by
      rw [hb0]
      exact bdSet_keys_subset [] _ _ (by simp) (by decide)
    have hs1 : ∀ p ∈ b1, p.1 ∈ purchase_reserved_keys := by
      rw [hb1]
      exact ite_keys_subset _ _ _ (bdSet_keys_subset _ _ _ hs0 (by decide)) hs0
    have hs2 : ∀ p ∈ b2, p.1 ∈ purchase_reserved_keys := by
      rw [hb2]
      exact bdSet_keys_subset _ _ _ hs1 (by decide)
    have hs3 : ∀ p ∈ b3, p.1 ∈ purchase_reserved_keys := by
      rw [hb3]
      exact foldl_keys_subset items b2 hs2 (fun s hs => (hprops.1 s hs).1)
    have hs4 : ∀ p ∈ b4, p.1 ∈ purchase_reserved_keys := by
      rw [hb4]
      exact bdSet_keys_subset _ _ _ hs3 (by decide)
    by_cases hren : inputs.renovations = []
    · simp only [if_pos hren]
      rw [line_item_sum_bdSet_excluded _ _ _ _ (by decide),
          line_item_sum_bdSet_excluded _ _ _ _ (by decide),
          line_item_sum_sched_ite]
      exact e4
    · simp only [if_neg hren]
      rw [line_item_sum_bdSet_excluded _ _ _ _ (by decide),
          line_item_sum_bdSet_excluded _ _ _ _ (by decide),
          line_item_sum_sched_ite,
          line_item_sum_bdSet_excluded _ _ _ _ (by decide)]
      rw [addRenovations_fst_sum ((get_rate country city "renovation_rates").toDict)
        inputs.renovations b4
        (fun s hs hmem => hres s hs (by
          unfold purchase_reserved_keys
          exact List.mem_append.mpr (Or.inr hmem)))
        (fun s hs => not_mem_bdHasKey b4 s hs4 (hres s hs))
        hnd 0]
      rw [addRenovations_snd]
      rw [e4]
      ring

/-- Running-cost line items over the holding period sum to the reported
total. -/
theorem running_line_items_eq (inputs : PropertyInputs) (country city : String)
    (years : ℕ) :
    running_component_sum
        (calculate_running_costs inputs country city years).breakdown_total =
      (calculate_running_costs inputs country city years).total := by
  unfold calculate_running_costs running_annual_items
  dsimp only
  split_ifs with hg h1 h2 <;>
    simp +decide [running_component_sum] <;> ring

/-- Selling-cost line items sum to the reported total. -/
theorem selling_line_items_eq (country city : String)
    (selling_price purchase_price basis : ℚ) (years : ℕ) (b : Bool) :
    selling_component_sum
        (calculate_selling_costs country city selling_price purchase_price basis
          years b).breakdown =
      (calculate_selling_costs country city selling_price purchase_price basis
        years b).total := by
  unfold calculate_selling_costs
  dsimp only
  split_ifs <;>
    simp +decide [selling_component_sum, line_item_sum, bdSet, bdHasKey, money_at] <;>
    ring

/-- Counterexample for C5: listing the renovation type `kitchen` twice (with
costs 10 and 20) makes the purchase breakdown's line items sum differ from
the reported total — the dict write for `renovation_kitchen` overwrites the
first cost while both costs are added to the total. -/
theorem c5_line_item_sum_counterexample :
    purchase_component_sum
        (calculate_purchase_costs c5_dup_inputs "spain" "barcelona").breakdown ≠
      (calculate_purchase_costs c5_dup_inputs "spain" "barcelona").total_investment_cost := by
  norm_num +decide [calculate_purchase_costs, purchase_loan_amount,
    purchase_initial_fraction, c5_dup_inputs, purchase_fee_items, get_rate,
    DEFAULT_RATES, barcelona_rates, RateValue.toQ, RateValue.toDict, addRenovations,
    reno_key, reno_cost, bdSet, bdHasKey, money_at, purchase_component_sum,
    line_item_sum, purchase_excluded_keys, initial_fraction_from_schedule]

/-- C5 as amended: for every running-cost and selling-cost breakdown, and
for every purchase breakdown whose renovation line-item keys are pairwise
distinct and collide with no key written by the calculator itself, the sum
of the individual cost line items in the breakdown mapping equals the
reported total (aggregate, informational and note entries — `taxes_fees_year0`,
`renovation_total`, `capital_gain`, `costs_gains`, the labelled gains-tax
duplicates, the echoed totals and schedule — are not line items). -/
theorem c5_line_item_sum_amended :
    (∀ (inputs : PropertyInputs) (country city : String) (years : ℕ),
       running_component_sum
           (calculate_running_costs inputs country city years).breakdown_total =
         (calculate_running_costs inputs country city years).total) ∧
    (∀ (country city : String) (selling_price purchase_price basis : ℚ)
       (years : ℕ) (b : Bool),
       selling_component_sum
           (calculate_selling_costs country city selling_price purchase_price basis
             years b).breakdown =
         (calculate_selling_costs country city selling_price purchase_price basis
           years b).total) ∧
    (∀ (inputs : PropertyInputs) (country city : String),
       (inputs.renovations.map reno_key).Nodup →
       (∀ s ∈ inputs.renovations.map reno_key, s ∉ purchase_reserved_keys) →
       purchase_component_sum
           (calculate_purchase_costs inputs country city).breakdown =
         (calculate_purchase_costs inputs country city).total_investment_cost) :=
  ⟨running_line_items_eq, selling_line_items_eq, purchase_line_items_eq⟩

/-- Witness for the amended C5 at concrete inputs (including a purchase with
one collision-free renovation). -/
theorem c5_line_item_sum_amended_witness :
    running_component_sum
        (calculate_running_costs sample_inputs "spain" "barcelona" 2).breakdown_total =
      (calculate_running_costs sample_inputs "spain" "barcelona" 2).total ∧
    selling_component_sum
        (calculate_selling_costs "spain" "barcelona" 1100 1000 1124 2 false).breakdown =
      (calculate_selling_costs "spain" "barcelona" 1100 1000 1124 2 false).total ∧
    purchase_component_sum
        (calculate_purchase_costs c5_ok_inputs "spain" "barcelona").breakdown =
      (calculate_purchase_costs c5_ok_inputs "spain" "barcelona").total_investment_cost :=
  ⟨c5_line_item_sum_amended.1 sample_inputs "spain" "barcelona" 2,
   c5_line_item_sum_amended.2.1 "spain" "barcelona" 1100 1000 1124 2 false,
   c5_line_item_sum_amended.2.2 c5_ok_inputs "spain" "barcelona" (by decide) (by decide)⟩

/-- Eliminator for `Option`-valued if-then-else: a property of every `some`
result follows from the same property on both branches. -/
theorem ite_some_imp {α : Type} {c : Prop} [Decidable c] {x y : Option α}
    {P : α → Prop} (hx : ∀ v, x = some v → P v) (hy : ∀ v, y = some v → P v) :
    ∀ v, (if c then x else y) = some v → P v := by
  intro v hv
  split at hv
  · exact hx v hv
  · exact hy v hv

/-- Eliminator for list-valued if-then-else: a property of every member
follows from the same property on both branches. -/
theorem ite_mem_imp {α : Type} {c : Prop} [Decidable c] {x y : List α}
    {P : α → Prop} (hx : ∀ a ∈ x, P a) (hy : ∀ a ∈ y, P a) :
    ∀ a ∈ (if c then x else y), P a := by
  intro a ha
  split at ha
  · exact hx a ha
  · exact hy a ha

/-- Eliminator for list append: a property of every member follows from the
same property on both halves. -/
theorem append_mem_imp {α : Type} {x y : List α} {P : α → Prop}
    (hx : ∀ a ∈ x, P a) (hy : ∀ a ∈ y, P a) : ∀ a ∈ x ++ y, P a := by
  intro a ha
  rcases List.mem_append.mp ha with h | h
  · exact hx a h
  · exact hy a h

/-- Every value stored in the `DEFAULT_RATES` table has a non-negative
scalar view. -/
theorem DEFAULT_RATES_nonneg (country city key : String) :
    ∀ v, DEFAULT_RATES country city key = some v → 0 ≤ v.toQ := by
  unfold DEFAULT_RATES barcelona_rates copenhagen_rates
  repeat' apply ite_some_imp
  all_goals intro v hv
  all_goals first
    | exact Option.noConfusion hv
    | (injection hv with hv2; subst hv2; norm_num [RateValue.toQ])

/-- Every scalar read through `get_rate` (including the missing-key default)
is non-negative. -/
theorem get_rate_toQ_nonneg (country city key : String) :
    0 ≤ (get_rate country city key).toQ := by
  unfold get_rate
  rcases hdr : DEFAULT_RATES country city key with _ | v
  · simp only [hdr]
    by_cases h1 : key = "capital_gains_tax_rate_spain"
    · rw [if_pos h1]; norm_num [RateValue.toQ]
    · rw [if_neg h1]
      by_cases h2 : key = "renovation_rates"
      · rw [if_pos h2]; norm_num [RateValue.toQ]
      · rw [if_neg h2]; norm_num [RateValue.toQ]
  · simp only [hdr]
    exact DEFAULT_RATES_nonneg country city key v hdr

/-- Every progressive table stored in the `DEFAULT_RATES` table has
non-negative rates. -/
theorem DEFAULT_RATES_table_nonneg (country city key : String) :
    ∀ v, DEFAULT_RATES country city key = some v →
      ∀ t ∈ v.toTable, 0 ≤ t.rate := by
  unfold DEFAULT_RATES barcelona_rates copenhagen_rates
  repeat' apply ite_some_imp
  all_goals intro v hv
  all_goals first
    | exact Option.noConfusion hv
    | (injection hv with hv2; subst hv2; intro t ht;
       simp only [RateValue.toTable, spain_cgt_table, List.mem_cons,
         List.not_mem_nil, or_false] at ht;
       rcases ht with rfl | rfl | rfl | rfl <;> norm_num)
    | (injection hv with hv2; subst hv2; intro t ht;
       simp only [RateValue.toTable, List.not_mem_nil] at ht)

/-- Every progressive table read through `get_rate` has non-negative
rates. -/
theorem get_rate_table_rates_nonneg (country city key : String) :
    ∀ t ∈ (get_rate country city key).toTable, 0 ≤ t.rate := by
  unfold get_rate
  rcases hdr : DEFAULT_RATES country city key with _ | v
  · simp only [hdr]
    by_cases h1 : key = "capital_gains_tax_rate_spain"
    · rw [if_pos h1]; intro t ht; simp [RateValue.toTable] at ht
    · rw [if_neg h1]
      by_cases h2 : key = "renovation_rates"
      · rw [if_pos h2]; intro t ht; simp [RateValue.toTable] at ht
      · rw [if_neg h2]; intro t ht; simp [RateValue.toTable] at ht
  · simp only [hdr]
    exact DEFAULT_RATES_table_nonneg country city key v hdr

/-- The progressive tax is never negative on a table with non-negative
rates. -/
theorem calculate_progressive_tax_nonneg (amount : ℚ) (table : List Tier)
    (hr : ∀ t ∈ table, 0 ≤ t.rate) :
    0 ≤ calculate_progressive_tax amount table := by
  unfold calculate_progressive_tax
  split
  · exact le_rfl
  · exact progressive_go_nonneg table hr amount 0

set_option maxHeartbeats 1000000 in
/-- Every purchase fee/tax line item is non-negative when the price and loan
amount are non-negative. -/
theorem purchase_fee_items_nonneg (country city prop_type : String)
    {price loan_amount : ℚ} (hp : 0 ≤ price) (hla : 0 ≤ loan_amount) :
    ∀ kv ∈ purchase_fee_items country city prop_type price loan_amount,
      0 ≤ kv.2 := by
  unfold purchase_fee_items
  repeat' first | apply ite_mem_imp | apply append_mem_imp
  all_goals intro kv hkv
  all_goals simp only [List.mem_cons, List.not_mem_nil, or_false] at hkv
  all_goals first
    | (rcases hkv with rfl | rfl)
    | (rcases hkv with rfl)
    | skip
  all_goals first
    | exact mul_nonneg hp (get_rate_toQ_nonneg _ _ _)
    | exact add_nonneg (get_rate_toQ_nonneg _ _ _)
        (mul_nonneg hp (get_rate_toQ_nonneg _ _ _))
    | exact add_nonneg (get_rate_toQ_nonneg _ _ _)
        (mul_nonneg hla (get_rate_toQ_nonneg _ _ _))
    | exact get_rate_toQ_nonneg _ _ _

set_option maxHeartbeats 1000000 in
/-- Every running-cost annual line item is non-negative when the price is
non-negative. -/
theorem running_annual_items_nonneg (country city : String) {price : ℚ}
    (hp : 0 ≤ price) :
    ∀ kv ∈ running_annual_items country city price, 0 ≤ kv.2 := by
  unfold running_annual_items
  repeat' apply ite_mem_imp
  all_goals intro kv hkv
  all_goals simp only [List.mem_cons, List.not_mem_nil, or_false] at hkv
  all_goals first
    | (rcases hkv with rfl | rfl | rfl)
    | (rcases hkv with rfl | rfl)
    | (rcases hkv with rfl)
    | skip
  all_goals first
    | exact mul_nonneg (mul_nonneg hp (by norm_num)) (get_rate_toQ_nonneg _ _ _)
    | exact mul_nonneg hp (get_rate_toQ_nonneg _ _ _)
    | exact mul_nonneg (get_rate_toQ_nonneg _ _ _) (by norm_num)
/-- An entry predicate survives a `bdSet` write whose written pair satisfies
it. -/
theorem mem_bdSet_pred {P : String × BVal → Prop} (bd : List (String × BVal))
    (k : String) (v : BVal) (hbd : ∀ p ∈ bd, P p) (hv : P (k, v)) :
    ∀ p ∈ bdSet bd k v, P p := by
  intro p hp
  rcases mem_bdSet bd k v p hp with rfl | h
  · exact hv
  · exact hbd p h

/-- An entry predicate survives folding a list of monetary writes whose
written pairs all satisfy it. -/
theorem mem_foldl_bdSet_pred {P : String × BVal → Prop}
    (items : List (String × ℚ)) (bd : List (String × BVal))
    (hbd : ∀ p ∈ bd, P p) (hit : ∀ kv ∈ items, P (kv.1, .q kv.2)) :
    ∀ p ∈ items.foldl (fun b kv => bdSet b kv.1 (.q kv.2)) bd, P p := by
  intro p hp
  rcases mem_foldl_bdSet items bd p hp with h | ⟨kv, hkv, rfl⟩
  · exact hbd p h
  · exact hit kv hkv

/-- The purchase calculator returns non-negative totals and a breakdown of
non-negative monetary entries, given a year-zero payment fraction between 0
and 1, non-negative renovation costs and a non-negative loan amount. -/
theorem calculate_purchase_costs_nonneg (inputs : PropertyInputs) (country city : String)
    (hfr0 : 0 ≤ purchase_initial_fraction inputs)
    (hfr1 : purchase_initial_fraction inputs ≤ 1)
    (hren : ∀ r ∈ inputs.renovations,
      0 ≤ reno_cost (get_rate country city "renovation_rates").toDict r)
    (hld : ∀ ld, inputs.loan_details = some ld → 0 ≤ ld.amount) :
    0 ≤ (calculate_purchase_costs inputs country city).total_investment_cost ∧
      0 ≤ (calculate_purchase_costs inputs country city).initial_outlay_year0 ∧
      ∀ p ∈ (calculate_purchase_costs inputs country city).breakdown,
        0 ≤ money_at p := by
  unfold calculate_purchase_costs
  dsimp only
  by_cases hp : inputs.new_flat_price ≤ 0
  · rw [if_pos hp]
    refine ⟨le_rfl, le_rfl, ?_⟩
    intro p hp2
    exact absurd hp2 (List.not_mem_nil p)
  · rw [if_neg hp]
    dsimp only
    have hp0 : (0:ℚ) ≤ inputs.new_flat_price := le_of_lt (not_le.mp hp)
    have hla : 0 ≤ purchase_loan_amount inputs inputs.new_flat_price := by
      rcases hld2 : inputs.loan_details with _ | ld
      · simp only [purchase_loan_amount, hld2]
        exact mul_nonneg hp0 (by norm_num)
      · simp only [purchase_loan_amount, hld2]
        exact hld ld hld2
    set items : List (String × ℚ) :=
      purchase_fee_items country city inputs.property_type inputs.new_flat_price
        (purchase_loan_amount inputs inputs.new_flat_price) with hitems
    have hfees : ∀ kv ∈ items, 0 ≤ kv.2 := by
      rw [hitems]
      exact purchase_fee_items_nonneg country city inputs.property_type hp0 hla
    have hfsum : 0 ≤ (items.map Prod.snd).sum := by
      apply List.sum_nonneg
      intro x hx
      obtain ⟨kv, hkv, rfl⟩ := List.mem_map.mp hx
      exact hfees kv hkv
    set b0 : List (String × BVal) :=
      bdSet [] "property_price" (.q inputs.new_flat_price) with hb0
    set b1 : List (String × BVal) :=
      (if inputs.property_type = "under_construction" ∧ inputs.payment_schedule = [] then
        bdSet b0 "warning_no_payment_schedule" (.s "Assumed 10 percent initial payment.")
      else b0) with hb1
    set b2 : List (String × BVal) :=
      bdSet b1 "initial_property_payment_year0"
        (.q (inputs.new_flat_price * purchase_initial_fraction inputs)) with hb2
    set b3 : List (String × BVal) :=
      items.foldl (fun b kv => bdSet b kv.1 (.q kv.2)) b2 with hb3
    set b4 : List (String × BVal) :=
      bdSet b3 "taxes_fees_year0" (.q ((items.map Prod.snd).sum)) with hb4
    have m0 : ∀ p ∈ b0, 0 ≤ money_at p := by
      rw [hb0]
      exact mem_bdSet_pred _ _ _
        (by intro p hp2; exact absurd hp2 (List.not_mem_nil p)) hp0
    have m1 : ∀ p ∈ b1, 0 ≤ money_at p := by
      rw [hb1]
      split
      · exact mem_bdSet_pred _ _ _ m0 le_rfl
      · exact m0
    have m2 : ∀ p ∈ b2, 0 ≤ money_at p := by
      rw [hb2]
      exact mem_bdSet_pred _ _ _ m1 (mul_nonneg hp0 hfr0)
    have m3 : ∀ p ∈ b3, 0 ≤ money_at p := by
      rw [hb3]
      exact mem_foldl_bdSet_pred items b2 m2 (fun kv hkv => hfees kv hkv)
    have m4 : ∀ p ∈ b4, 0 ≤ money_at p := by
      rw [hb4]
      exact mem_bdSet_pred _ _ _ m3 hfsum
    by_cases hrenc : inputs.renovations = []
    · simp only [if_pos hrenc]
      refine ⟨add_nonneg hp0 hfsum, add_nonneg (mul_nonneg hp0 hfr0) hfsum, ?_⟩
      refine mem_bdSet_pred _ _ _
        (mem_bdSet_pred _ _ _ ?_ (add_nonneg hp0 hfsum))
        (add_nonneg (mul_nonneg hp0 hfr0) hfsum)
      split
      · exact mem_bdSet_pred _ _ _ (mem_bdSet_pred _ _ _ m4 le_rfl)
          (mul_nonneg hp0 (by linarith))
      · exact m4
    · simp only [if_neg hrenc]
      set rates : List (String × ℚ) :=
        (get_rate country city "renovation_rates").toDict with hrates
      have hrsum : 0 ≤ (inputs.renovations.map (reno_cost rates)).sum := by
        apply List.sum_nonneg
        intro x hx
        obtain ⟨r, hr, rfl⟩ := List.mem_map.mp hx
        exact hren r hr
      have hrl2' : 0 ≤ (addRenovations rates inputs.renovations b4 0).2 := by
        rw [addRenovations_snd]
        rw [zero_add]
        exact hrsum
      have mren : ∀ p ∈ (addRenovations rates inputs.renovations b4 0).1,
          0 ≤ money_at p := by
        intro p hp2
        rcases mem_addRenovations rates inputs.renovations b4 0 p hp2 with h | ⟨r, hr, rfl⟩
        · exact m4 p h
        · exact hren r hr
      refine ⟨add_nonneg (add_nonneg hp0 hfsum) hrl2',
        add_nonneg (add_nonneg (mul_nonneg hp0 hfr0) hfsum) hrl2', ?_⟩
      refine mem_bdSet_pred _ _ _
        (mem_bdSet_pred _ _ _ ?_ (add_nonneg (add_nonneg hp0 hfsum) hrl2'))
        (add_nonneg (add_nonneg (mul_nonneg hp0 hfr0) hfsum) hrl2')
      split
      · exact mem_bdSet_pred _ _ _
          (mem_bdSet_pred _ _ _ (mem_bdSet_pred _ _ _ mren hrl2') le_rfl)
          (mul_nonneg hp0 (by linarith))
      · exact mem_bdSet_pred _ _ _ mren hrl2'

/-- The running-cost calculator returns a non-negative total and
non-negative annual and period line items, for all inputs. -/
theorem calculate_running_costs_nonneg (inputs : PropertyInputs) (country city : String)
    (years : ℕ) :
    0 ≤ (calculate_running_costs inputs country city years).total ∧
      (∀ kv ∈ (calculate_running_costs inputs country city years).breakdown_annual,
        0 ≤ kv.2) ∧
      (∀ kv ∈ (calculate_running_costs inputs country city years).breakdown_total,
        0 ≤ kv.2) := by
  unfold calculate_running_costs
  dsimp only
  generalize (if inputs.property_type = "under_construction" then
      inputs.construction_completion_years else 0) = cc
  split_ifs with hg
  · refine ⟨le_rfl, ?_, ?_⟩ <;> intro kv hkv <;> exact absurd hkv (List.not_mem_nil kv)
  · push_neg at hg
    have hp0 : (0:ℚ) ≤ inputs.new_flat_price := le_of_lt hg.1
    have hit := running_annual_items_nonneg country city hp0
    have hsum : 0 ≤ ((running_annual_items country city
        inputs.new_flat_price).map Prod.snd).sum := by
      apply List.sum_nonneg
      intro x hx
      obtain ⟨kv2, hkv2, rfl⟩ := List.mem_map.mp hx
      exact hit kv2 hkv2
    have hann : ∀ kv ∈ running_annual_items country city inputs.new_flat_price ++
        [("total_annual_running_costs",
          ((running_annual_items country city inputs.new_flat_price).map Prod.snd).sum)],
        0 ≤ kv.2 := by
      intro kv hkv
      rcases List.mem_append.mp hkv with h | h
      · exact hit kv h
      · rw [List.mem_singleton] at h
        subst h
        exact hsum
    refine ⟨mul_nonneg hsum (Nat.cast_nonneg _), hann, ?_⟩
    intro kv hkv
    obtain ⟨kv2, hkv2, rfl⟩ := List.mem_map.mp hkv
    exact mul_nonneg (hann kv2 hkv2) (Nat.cast_nonneg _)

/-- The selling calculator returns a non-negative total, and every breakdown
entry other than the informational `capital_gain` is non-negative, for all
inputs. -/
theorem calculate_selling_costs_nonneg (country city : String)
    (sp pp basis : ℚ) (years : ℕ) (b : Bool) :
    0 ≤ (calculate_selling_costs country city sp pp basis years b).total ∧
      ∀ p ∈ (calculate_selling_costs country city sp pp basis years b).breakdown,
        p.1 ≠ "capital_gain" → 0 ≤ money_at p := by
  unfold calculate_selling_costs
  dsimp only
  by_cases hg : sp ≤ 0 ∨ pp ≤ 0
  · rw [if_pos hg]
    refine ⟨le_rfl, ?_⟩
    intro p hp
    exact absurd hp (List.not_mem_nil p)
  · rw [if_neg hg]
    push_neg at hg
    have hsp : (0:ℚ) ≤ sp := le_of_lt hg.1
    have hag : 0 ≤ sp * (get_rate country city "selling_agency_fee_rate").toQ :=
      mul_nonneg hsp (get_rate_toQ_nonneg _ _ _)
    have hplus : 0 ≤ (get_rate country city "selling_plusvalia_municipal").toQ :=
      get_rate_toQ_nonneg _ _ _
    by_cases hdk : country = "denmark"
    · rw [if_pos hdk]
      have hns : ¬(country = "spain") := by rw [hdk]; decide
      rw [if_neg hns]
      dsimp only
      refine ⟨add_nonneg hag le_rfl, ?_⟩
      refine mem_bdSet_pred _ _ _ ?_ ?_
      · refine mem_bdSet_pred _ _ _ ?_ ?_
        · refine mem_bdSet_pred _ _ _ ?_ ?_
          · refine mem_bdSet_pred _ _ _ ?_ ?_
            · refine mem_bdSet_pred _ _ _ ?_ ?_
              · intro p hp2
                exact absurd hp2 (List.not_mem_nil p)
              · exact fun _ => hag
            · intro h2
              exact absurd rfl h2
          · exact fun _ => le_rfl
        · exact fun _ => le_rfl
      · exact fun _ => le_max_left 0 _
    · rw [if_neg hdk]
      by_cases hsp2 : country = "spain"
      · by_cases hb : b = true
        · rw [if_pos hsp2, if_pos hb]
          have ht : 0 ≤ (if 0 < sp - basis then
              (sp - basis) * (get_rate country city "beckham_law_tax_rate").toQ
            else 0) := by
            split
            · exact mul_nonneg (le_of_lt (by assumption)) (get_rate_toQ_nonneg _ _ _)
            · exact le_rfl
          rw [if_pos hsp2]
          dsimp only
          refine ⟨add_nonneg (add_nonneg hag ht) hplus, ?_⟩
          refine mem_bdSet_pred _ _ _ ?_ ?_
          · refine mem_bdSet_pred _ _ _ ?_ ?_
            · refine mem_bdSet_pred _ _ _ ?_ ?_
              · refine mem_bdSet_pred _ _ _ ?_ ?_
                · refine mem_bdSet_pred _ _ _ ?_ ?_
                  · refine mem_bdSet_pred _ _ _ ?_ ?_
                    · intro p hp2
                      exact absurd hp2 (List.not_mem_nil p)
                    · exact fun _ => hag
                  · intro h2
                    exact absurd rfl h2
                · exact fun _ => ht
              · exact fun _ => ht
            · exact fun _ => hplus
          · exact fun _ => le_max_left 0 _
        · rw [if_pos hsp2, if_neg hb]
          have ht : 0 ≤ (if 0 < sp - basis then
              calculate_progressive_tax (sp - basis)
                (get_rate country city "capital_gains_tax_rate_spain").toTable
            else 0) := by
            split
            · exact calculate_progressive_tax_nonneg _ _
                (get_rate_table_rates_nonneg _ _ _)
            · exact le_rfl
          rw [if_pos hsp2]
          dsimp only
          refine ⟨add_nonneg (add_nonneg hag ht) hplus, ?_⟩
          refine mem_bdSet_pred _ _ _ ?_ ?_
          · refine mem_bdSet_pred _ _ _ ?_ ?_
            · refine mem_bdSet_pred _ _ _ ?_ ?_
              · refine mem_bdSet_pred _ _ _ ?_ ?_
                · refine mem_bdSet_pred _ _ _ ?_ ?_
                  · refine mem_bdSet_pred _ _ _ ?_ ?_
                    · intro p hp2
                      exact absurd hp2 (List.not_mem_nil p)
                    · exact fun _ => hag
                  · intro h2
                    exact absurd rfl h2
                · exact fun _ => ht
              · exact fun _ => ht
            · exact fun _ => hplus
          · exact fun _ => le_max_left 0 _
      · rw [if_neg hsp2, if_neg hsp2]
        dsimp only
        refine ⟨add_nonneg hag le_rfl, ?_⟩
        refine mem_bdSet_pred _ _ _ ?_ ?_
        · refine mem_bdSet_pred _ _ _ ?_ ?_
          · refine mem_bdSet_pred _ _ _ ?_ ?_
            · refine mem_bdSet_pred _ _ _ ?_ ?_
              · intro p hp2
                exact absurd hp2 (List.not_mem_nil p)
              · exact fun _ => hag
            · intro h2
              exact absurd rfl h2
          · exact fun _ => le_rfl
        · exact fun _ => le_max_left 0 _
/-- Counterexample for C8: selling at 100 a property whose investment cost
basis is 1000 puts the monetary line item `capital_gain = -900` into the
selling breakdown, so not every named line item is non-negative — only the
guard (`salePrice` or `purchasePrice` non-positive) and not negativity
protects the figures. -/
theorem c8_nonnegative_counterexample :
    bdGetQ (calculate_selling_costs "spain" "barcelona" 100 50 1000 1
        false).breakdown "capital_gain" = -900 ∧ (-900 : ℚ) < 0 := by
  constructor
  · norm_num +decide [calculate_selling_costs, get_rate, DEFAULT_RATES,
      barcelona_rates, RateValue.toQ, RateValue.toTable, spain_cgt_table,
      calculate_progressive_tax, progressive_go, bdSet, bdHasKey, bdGetQ,
      List.find?, money_at]
  · norm_num

/-- C8 (amended): every monetary figure produced by the purchase, running
and selling calculators — totals and named line items — is non-negative,
with two corrections to the claim: (i) the purchase side needs the implied
input sanity conditions (a year-zero payment fraction between 0 and 1,
non-negative renovation costs and a non-negative loan amount), and (ii) the
selling breakdown's informational `capital_gain` entry (not only the net
profit/loss) may be negative and is excluded. -/
theorem c8_nonnegative_amended (inputs : PropertyInputs) (country city : String)
    (years : ℕ) (sp pp basis : ℚ) (b : Bool)
    (hfr0 : 0 ≤ purchase_initial_fraction inputs)
    (hfr1 : purchase_initial_fraction inputs ≤ 1)
    (hren : ∀ r ∈ inputs.renovations,
      0 ≤ reno_cost (get_rate country city "renovation_rates").toDict r)
    (hld : ∀ ld, inputs.loan_details = some ld → 0 ≤ ld.amount) :
    (0 ≤ (calculate_purchase_costs inputs country city).total_investment_cost ∧
      0 ≤ (calculate_purchase_costs inputs country city).initial_outlay_year0 ∧
      ∀ p ∈ (calculate_purchase_costs inputs country city).breakdown,
        0 ≤ money_at p) ∧
    (0 ≤ (calculate_running_costs inputs country city years).total ∧
      (∀ kv ∈ (calculate_running_costs inputs country city years).breakdown_annual,
        0 ≤ kv.2) ∧
      (∀ kv ∈ (calculate_running_costs inputs country city years).breakdown_total,
        0 ≤ kv.2)) ∧
    (0 ≤ (calculate_selling_costs country city sp pp basis years b).total ∧
      ∀ p ∈ (calculate_selling_costs country city sp pp basis years b).breakdown,
        p.1 ≠ "capital_gain" → 0 ≤ money_at p) :=
  ⟨calculate_purchase_costs_nonneg inputs country city hfr0 hfr1 hren hld,
   calculate_running_costs_nonneg inputs country city years,
   calculate_selling_costs_nonneg country city sp pp basis years b⟩

/-- Witness for C8 (amended) at the sample inputs: the hypotheses hold
concretely and the non-negativity conclusions follow. -/
theorem c8_nonnegative_amended_witness :
    (0 ≤ purchase_initial_fraction sample_inputs ∧
      purchase_initial_fraction sample_inputs ≤ 1 ∧
      (∀ r ∈ sample_inputs.renovations,
        0 ≤ reno_cost (get_rate "spain" "barcelona" "renovation_rates").toDict r) ∧
      (∀ ld, sample_inputs.loan_details = some ld → 0 ≤ ld.amount)) ∧
    ((0 ≤ (calculate_purchase_costs sample_inputs "spain" "barcelona").total_investment_cost ∧
      0 ≤ (calculate_purchase_costs sample_inputs "spain" "barcelona").initial_outlay_year0 ∧
      ∀ p ∈ (calculate_purchase_costs sample_inputs "spain" "barcelona").breakdown,
        0 ≤ money_at p) ∧
    (0 ≤ (calculate_running_costs sample_inputs "spain" "barcelona" 2).total ∧
      (∀ kv ∈ (calculate_running_costs sample_inputs "spain" "barcelona" 2).breakdown_annual,
        0 ≤ kv.2) ∧
      (∀ kv ∈ (calculate_running_costs sample_inputs "spain" "barcelona" 2).breakdown_total,
        0 ≤ kv.2)) ∧
    (0 ≤ (calculate_selling_costs "spain" "barcelona" 100 50 1000 2 false).total ∧
      ∀ p ∈ (calculate_selling_costs "spain" "barcelona" 100 50 1000 2 false).breakdown,
        p.1 ≠ "capital_gain" → 0 ≤ money_at p)) := by
  have h1 : 0 ≤ purchase_initial_fraction sample_inputs := by
    norm_num +decide [purchase_initial_fraction, sample_inputs]
  have h2 : purchase_initial_fraction sample_inputs ≤ 1 := by
    norm_num +decide [purchase_initial_fraction, sample_inputs]
  have h3 : ∀ r ∈ sample_inputs.renovations,
      0 ≤ reno_cost (get_rate "spain" "barcelona" "renovation_rates").toDict r := by
    intro r hr
    simp [sample_inputs] at hr
  have h4 : ∀ ld, sample_inputs.loan_details = some ld → 0 ≤ ld.amount := by
    intro ld h
    simp [sample_inputs] at h
  exact ⟨⟨h1, h2, h3, h4⟩,
    c8_nonnegative_amended sample_inputs "spain" "barcelona" 2 100 50 1000 false
      h1 h2 h3 h4⟩
